import Mathlib

/-
Verification development for the CommonLowLevelTracingKit trace decoder
(`decoder_tool/python/clltk_decoder.py`).

The decoder is shallowly embedded: every Python function or class
constructor used by the verified properties is translated into an
executable Lean definition.  Byte strings become `List Nat` (each element
a byte value), Python's arbitrary-precision integers become `Nat`/`Int`,
and any code path that can raise an exception (assert, IndexError, ...)
returns `Except Err α`.  Python's logging calls are side effects without
semantic influence on the decoded data and are not represented.  The
decoder's global mutable state (`current_Endian`, `current_version`) is
threaded through as explicit parameters.  External library behaviour the
decoder relies on (hashlib.md5, CPython's `%` string formatting,
`int.from_bytes`, UTF-8 decoding with errors="ignore") is modelled
directly from the documented semantics of those libraries, restricted to
the value ranges the decoder exercises; each such definition carries a
doc comment saying so.
-/

set_option maxHeartbeats 2000000
set_option maxRecDepth 10000

namespace CLLTK

/-- Exceptions a translated code path can raise.  Python distinguishes
`AssertionError`, `IndexError`, `ValueError`, `AttributeError`,
`RuntimeError` and `TypeError`; dynamic parts of Python's message strings
(tracebacks, repr of runtime values) are not reproduced verbatim.
`outOfFuel` is a sentinel for the fuel-based embedding of `while` loops;
the termination theorems show it is never produced. -/
inductive Err where
  | assertionError (msg : String)
  | indexError
  | valueError
  | attributeError
  | runtimeError (msg : String)
  | typeError (msg : String)
  | notModelled (msg : String)
  | outOfFuel
deriving DecidableEq

/-- Resolve a Python slice bound: negative indices count from the end,
and bounds are clamped to `[0, len]`. -/
def pyIdx (len : Nat) (i : Int) : Nat :=
  min (if i < 0 then ((len : Int) + i).toNat else i.toNat) len

/-- Python slice `l[a:b]`. -/
def pySlice (l : List Nat) (a b : Int) : List Nat :=
  (l.take (pyIdx l.length b)).drop (pyIdx l.length a)

/-- `get(raw, offset, size)` from the source: asserts
`len(raw) >= offset + size` and returns `raw[offset : offset+size]`.
The source's assert message interpolates the two lengths; the message is
modelled by a fixed string. -/
def get (raw : List Nat) (offset size : Int) : Except Err (List Nat) :=
  if (raw.length : Int) < offset + size then
    .error (.assertionError "get out of bounds")
  else
    .ok (pySlice raw offset (offset + size))

/-- A Python `assert`/check: succeed with `()` or raise `e`. -/
def py_check (c : Prop) [Decidable c] (e : Err) : Except Err Unit :=
  if c then .ok () else .error e

/-- `assert c, msg`. -/
def py_assert (c : Prop) [Decidable c] (msg : String) : Except Err Unit :=
  py_check c (.assertionError msg)

/-- `get(raw, offset)` with `size=None` from the source: `raw[offset:]`. -/
def getFrom (raw : List Nat) (offset : Int) : List Nat :=
  pySlice raw offset raw.length

/-- Byte order, `Endian` in the source. -/
inductive Endian where
  | big
  | little
deriving DecidableEq

/-- `int.from_bytes(l, endian)` (unsigned), modelled from the documented
CPython semantics. -/
def from_bytes (e : Endian) (l : List Nat) : Nat :=
  match e with
  | .little => l.foldr (fun b acc => b + 256 * acc) 0
  | .big => l.foldl (fun acc b => acc * 256 + b) 0

/-- Two's-complement interpretation used by `int.from_bytes(..., signed=True)`. -/
def to_signed (width : Nat) (n : Nat) : Int :=
  if 2 ^ (8 * width - 1) ≤ n ∧ 0 < width then (n : Int) - 2 ^ (8 * width) else (n : Int)

/-- `get_int(raw, offset, size, signed)` from the source. -/
def get_int (raw : List Nat) (offset size : Int) (endian : Endian) (signed : Bool) :
    Except Err Int := do
  let bs ← get raw offset size
  if signed then
    return to_signed bs.length (from_bytes endian bs)
  else
    return (from_bytes endian bs : Int)

/-- The 256-entry CRC8 lookup table from the source (`crc8.table`),
for the polynomial x^8 + x^2 + x + 1. -/
def crc8_table : List Nat :=
  [0x00, 0x07, 0x0e, 0x09, 0x1c, 0x1b, 0x12, 0x15,
   0x38, 0x3f, 0x36, 0x31, 0x24, 0x23, 0x2a, 0x2d,
   0x70, 0x77, 0x7e, 0x79, 0x6c, 0x6b, 0x62, 0x65,
   0x48, 0x4f, 0x46, 0x41, 0x54, 0x53, 0x5a, 0x5d,
   0xe0, 0xe7, 0xee, 0xe9, 0xfc, 0xfb, 0xf2, 0xf5,
   0xd8, 0xdf, 0xd6, 0xd1, 0xc4, 0xc3, 0xca, 0xcd,
   0x90, 0x97, 0x9e, 0x99, 0x8c, 0x8b, 0x82, 0x85,
   0xa8, 0xaf, 0xa6, 0xa1, 0xb4, 0xb3, 0xba, 0xbd,
   0xc7, 0xc0, 0xc9, 0xce, 0xdb, 0xdc, 0xd5, 0xd2,
   0xff, 0xf8, 0xf1, 0xf6, 0xe3, 0xe4, 0xed, 0xea,
   0xb7, 0xb0, 0xb9, 0xbe, 0xab, 0xac, 0xa5, 0xa2,
   0x8f, 0x88, 0x81, 0x86, 0x93, 0x94, 0x9d, 0x9a,
   0x27, 0x20, 0x29, 0x2e, 0x3b, 0x3c, 0x35, 0x32,
   0x1f, 0x18, 0x11, 0x16, 0x03, 0x04, 0x0d, 0x0a,
   0x57, 0x50, 0x59, 0x5e, 0x4b, 0x4c, 0x45, 0x42,
   0x6f, 0x68, 0x61, 0x66, 0x73, 0x74, 0x7d, 0x7a,
   0x89, 0x8e, 0x87, 0x80, 0x95, 0x92, 0x9b, 0x9c,
   0xb1, 0xb6, 0xbf, 0xb8, 0xad, 0xaa, 0xa3, 0xa4,
   0xf9, 0xfe, 0xf7, 0xf0, 0xe5, 0xe2, 0xeb, 0xec,
   0xc1, 0xc6, 0xcf, 0xc8, 0xdd, 0xda, 0xd3, 0xd4,
   0x69, 0x6e, 0x67, 0x60, 0x75, 0x72, 0x7b, 0x7c,
   0x51, 0x56, 0x5f, 0x58, 0x4d, 0x4a, 0x43, 0x44,
   0x19, 0x1e, 0x17, 0x10, 0x05, 0x02, 0x0b, 0x0c,
   0x21, 0x26, 0x2f, 0x28, 0x3d, 0x3a, 0x33, 0x34,
   0x4e, 0x49, 0x40, 0x47, 0x52, 0x55, 0x5c, 0x5b,
   0x76, 0x71, 0x78, 0x7f, 0x6a, 0x6d, 0x64, 0x63,
   0x3e, 0x39, 0x30, 0x37, 0x22, 0x25, 0x2c, 0x2b,
   0x06, 0x01, 0x08, 0x0f, 0x1a, 0x1d, 0x14, 0x13,
   0xae, 0xa9, 0xa0, 0xa7, 0xb2, 0xb5, 0xbc, 0xbb,
   0x96, 0x91, 0x98, 0x9f, 0x8a, 0x8d, 0x84, 0x83,
   0xde, 0xd9, 0xd0, 0xd7, 0xc2, 0xc5, 0xcc, 0xcb,
   0xe6, 0xe1, 0xe8, 0xef, 0xfa, 0xfd, 0xf4, 0xf3]

/-- One step of the source's `crc8` loop: `init = crc8.table[init ^ byte]`. -/
def crc8_step (init b : Nat) : Nat :=
  crc8_table.getD (init ^^^ b) 0

/-- `crc8(data, init)` from the source. -/
def crc8 (data : List Nat) (init : Nat) : Nat :=
  match data with
  | [] => init
  | b :: rest => crc8 rest (crc8_step init b)

/-- Inverse permutation of `crc8_table`, used to prove the table is a
bijection on bytes.  (The table maps `i` to the CRC of the single byte
`i`, which is a GF(2)-linear bijection.) -/
def crc8_table_inv : List Nat :=
  [0, 217, 181, 108, 109, 180, 216, 1,
   218, 3, 111, 182, 183, 110, 2, 219,
   179, 106, 6, 223, 222, 7, 107, 178,
   105, 176, 220, 5, 4, 221, 177, 104,
   97, 184, 212, 13, 12, 213, 185, 96,
   187, 98, 14, 215, 214, 15, 99, 186,
   210, 11, 103, 190, 191, 102, 10, 211,
   8, 209, 189, 100, 101, 188, 208, 9,
   194, 27, 119, 174, 175, 118, 26, 195,
   24, 193, 173, 116, 117, 172, 192, 25,
   113, 168, 196, 29, 28, 197, 169, 112,
   171, 114, 30, 199, 198, 31, 115, 170,
   163, 122, 22, 207, 206, 23, 123, 162,
   121, 160, 204, 21, 20, 205, 161, 120,
   16, 201, 165, 124, 125, 164, 200, 17,
   202, 19, 127, 166, 167, 126, 18, 203,
   131, 90, 54, 239, 238, 55, 91, 130,
   89, 128, 236, 53, 52, 237, 129, 88,
   48, 233, 133, 92, 93, 132, 232, 49,
   234, 51, 95, 134, 135, 94, 50, 235,
   226, 59, 87, 142, 143, 86, 58, 227,
   56, 225, 141, 84, 85, 140, 224, 57,
   81, 136, 228, 61, 60, 229, 137, 80,
   139, 82, 62, 231, 230, 63, 83, 138,
   65, 152, 244, 45, 44, 245, 153, 64,
   155, 66, 46, 247, 246, 47, 67, 154,
   242, 43, 71, 158, 159, 70, 42, 243,
   40, 241, 157, 68, 69, 156, 240, 41,
   32, 249, 149, 76, 77, 148, 248, 33,
   250, 35, 79, 150, 151, 78, 34, 251,
   147, 74, 38, 255, 254, 39, 75, 146,
   73, 144, 252, 37, 36, 253, 145, 72]

theorem crc8_table_length : crc8_table.length = 256 := by decide

theorem crc8_table_inv_cancel :
    ∀ i < 256, crc8_table_inv.getD (crc8_table.getD i 0) 0 = i := by decide

theorem crc8_table_entry_lt : ∀ i < 256, crc8_table.getD i 0 < 256 := by decide

theorem crc8_table_getD_lt (n : Nat) : crc8_table.getD n 0 < 256 := by
  by_cases h : n < 256
  · exact crc8_table_entry_lt n h
  · rw [List.getD_eq_default]
    · omega
    · rw [crc8_table_length]; omega

theorem crc8_step_lt (init b : Nat) : crc8_step init b < 256 :=
  crc8_table_getD_lt _

theorem crc8_lt (data : List Nat) (init : Nat) (h : init < 256) :
    crc8 data init < 256 := by
  induction data generalizing init with
  | nil => exact h
  | cons b rest ih => exact ih _ (crc8_step_lt init b)

theorem crc8_table_getD_inj {a b : Nat} (ha : a < 256) (hb : b < 256)
    (h : crc8_table.getD a 0 = crc8_table.getD b 0) : a = b := by
  have h1 := crc8_table_inv_cancel a ha
  have h2 := crc8_table_inv_cancel b hb
  rw [h] at h1
  omega

theorem xor_lt_256 {a b : Nat} (ha : a < 256) (hb : b < 256) : a ^^^ b < 256 :=
  Nat.xor_lt_two_pow (n := 8) ha hb

theorem crc8_step_inj_right {i b b' : Nat} (hi : i < 256) (hb : b < 256) (hb' : b' < 256)
    (hne : b ≠ b') : crc8_step i b ≠ crc8_step i b' := by
  intro h
  have := crc8_table_getD_inj (xor_lt_256 hi hb) (xor_lt_256 hi hb') h
  have : b = b' := by
    have h2 : i ^^^ (i ^^^ b) = i ^^^ (i ^^^ b') := by rw [this]
    simpa [← Nat.xor_assoc, Nat.xor_self] using h2
  exact hne this

theorem crc8_step_inj_left {i i' b : Nat} (hi : i < 256) (hi' : i' < 256) (hb : b < 256)
    (hne : i ≠ i') : crc8_step i b ≠ crc8_step i' b := by
  intro h
  have := crc8_table_getD_inj (xor_lt_256 hi hb) (xor_lt_256 hi' hb) h
  have : i = i' := by
    have h2 : (i ^^^ b) ^^^ b = (i' ^^^ b) ^^^ b := by rw [this]
    simpa [Nat.xor_assoc, Nat.xor_self] using h2
  exact hne this

theorem crc8_inj_init (data : List Nat) {i i' : Nat} (hi : i < 256) (hi' : i' < 256)
    (hdata : ∀ b ∈ data, b < 256) (hne : i ≠ i') :
    crc8 data i ≠ crc8 data i' := by
  induction data generalizing i i' with
  | nil => exact hne
  | cons b rest ih =>
      have hb : b < 256 := hdata b (by simp)
      exact ih (crc8_step_lt i b) (crc8_step_lt i' b)
        (fun x hx => hdata x (by simp [hx]))
        (crc8_step_inj_left hi hi' hb hne)

theorem crc8_append (xs ys : List Nat) (init : Nat) :
    crc8 (xs ++ ys) init = crc8 ys (crc8 xs init) := by
  induction xs generalizing init with
  | nil => rfl
  | cons b rest ih => simp [crc8, ih]

/-- Appending the running CRC as a trailing byte makes the total CRC zero:
the writer stores `crc8(frame)` as the frame's final byte and the reader
checks that the CRC over the full frame is `0`. -/
theorem crc8_append_self (xs : List Nat) (init : Nat) :
    crc8 (xs ++ [crc8 xs init]) init = 0 := by
  rw [crc8_append]
  simp [crc8, crc8_step, Nat.xor_self, crc8_table]

/-- Flip bit `k` of the byte at position `i`. -/
def flip_bit (data : List Nat) (i k : Nat) : List Nat :=
  data.set i (data.getD i 0 ^^^ (1 <<< k))

theorem flip_bit_cons_zero (b : Nat) (rest : List Nat) (k : Nat) :
    flip_bit (b :: rest) 0 k = (b ^^^ (1 <<< k)) :: rest := by
  simp [flip_bit]

theorem flip_bit_cons_succ (b : Nat) (rest : List Nat) (i k : Nat) :
    flip_bit (b :: rest) (i + 1) k = b :: flip_bit rest i k := by
  simp [flip_bit]

theorem xor_pow_ne {b k : Nat} (hk : k < 8) : b ^^^ (1 <<< k) ≠ b := by
  intro h
  have h2 : b ^^^ (b ^^^ (1 <<< k)) = 1 <<< k := by
    rw [← Nat.xor_assoc, Nat.xor_self, Nat.zero_xor]
  rw [h, Nat.xor_self] at h2
  have h3 : (0 : Nat) < 1 <<< k := by
    rw [Nat.one_shiftLeft]
    positivity
  omega

theorem xor_pow_lt {b k : Nat} (hb : b < 256) (hk : k < 8) : b ^^^ (1 <<< k) < 256 := by
  have h1 : 1 <<< k < 256 := by
    have h2 : (2 : Nat) ^ k < 2 ^ 8 := Nat.pow_lt_pow_right (by norm_num) hk
    rw [Nat.one_shiftLeft]
    exact h2
  exact xor_lt_256 hb h1

theorem crc8_flip_ne (data : List Nat) (i k init : Nat)
    (hi : i < data.length) (hk : k < 8) (hinit : init < 256)
    (hbytes : ∀ b ∈ data, b < 256) :
    crc8 (flip_bit data i k) init ≠ crc8 data init := by
  induction data generalizing i init with
  | nil => simp at hi
  | cons b rest ih =>
      have hb : b < 256 := hbytes b (by simp)
      have hrest : ∀ x ∈ rest, x < 256 := fun x hx => hbytes x (by simp [hx])
      cases i with
      | zero =>
          rw [flip_bit_cons_zero]
          show crc8 rest (crc8_step init (b ^^^ (1 <<< k))) ≠ crc8 rest (crc8_step init b)
          exact crc8_inj_init rest (crc8_step_lt _ _) (crc8_step_lt _ _) hrest
            (crc8_step_inj_right hinit (xor_pow_lt hb hk) hb (xor_pow_ne hk))
      | succ j =>
          rw [flip_bit_cons_succ]
          show crc8 (flip_bit rest j k) (crc8_step init b) ≠ crc8 rest (crc8_step init b)
          exact ih j (crc8_step init b) (by simpa using hi) (crc8_step_lt init b) hrest

/-- C4: flipping any single bit of any byte of the input changes the CRC8
value computed by the table-driven checksum; in particular if the frame's
accumulated residue is `0`, every single-bit corruption yields a non-zero
residue. -/
theorem crc8_single_bit_flip_changes_crc (data : List Nat) (i k init : Nat)
    (hi : i < data.length) (hk : k < 8) (hinit : init < 256)
    (hbytes : ∀ b ∈ data, b < 256) :
    crc8 (flip_bit data i k) init ≠ crc8 data init ∧
      (crc8 data init = 0 → crc8 (flip_bit data i k) init ≠ 0) := by
  have main := crc8_flip_ne data i k init hi hk hinit hbytes
  exact ⟨main, fun h0 h => main (h.trans h0.symm)⟩

/-- Witness for C4 at a concrete frame. -/
theorem crc8_single_bit_flip_changes_crc_witness :
    crc8 (flip_bit [126, 26, 0, 55] 1 3) 0 ≠ crc8 [126, 26, 0, 55] 0 ∧
      (crc8 [126, 26, 0, 55] 0 = 0 → crc8 (flip_bit [126, 26, 0, 55] 1 3) 0 ≠ 0) :=
  crc8_single_bit_flip_changes_crc [126, 26, 0, 55] 1 3 0 (by decide) (by decide)
    (by decide) (by decide)

mutual

/-- Elements of the Python extended slice `l[::2]` (even indices). -/
def evens : List Nat → List Nat
  | [] => []
  | a :: rest => a :: odds rest

/-- Elements of the Python extended slice `l[1::2]` (odd indices). -/
def odds : List Nat → List Nat
  | [] => []
  | _ :: rest => evens rest

end

/-- `swap_odd_bytes(data)` from the source: extract the bytes at even and
odd indices (`even_bytes`, `odd_bytes`), zip each odd byte with the
preceding even byte, flatten the swapped pairs, and if the length is odd
append the final byte (`data[-1:]`). -/
def swap_odd_bytes (data : List Nat) : List Nat :=
  (((odds data).zip (evens data)).map fun p => [p.1, p.2]).flatten ++
    (if data.length % 2 = 1 then data.drop (data.length - 1) else [])

/-- Simple two-at-a-time recursion equivalent to `swap_odd_bytes`. -/
def swapPairs : List Nat → List Nat
  | a :: b :: t => b :: a :: swapPairs t
  | l => l

theorem swap_tail_eq (a b : Nat) (t : List Nat) :
    (if (t.length + 1 + 1) % 2 = 1 then (a :: b :: t).drop (t.length + 1 + 1 - 1) else []) =
      (if t.length % 2 = 1 then t.drop (t.length - 1) else []) := by
  have hmod : (t.length + 1 + 1) % 2 = t.length % 2 := by omega
  rw [hmod]
  by_cases h : t.length % 2 = 1
  · rw [if_pos h, if_pos h]
    have h2 : t.length + 1 + 1 - 1 = (t.length - 1) + 1 + 1 := by omega
    rw [h2, List.drop_succ_cons, List.drop_succ_cons]
  · rw [if_neg h, if_neg h]

theorem swap_odd_bytes_cons_cons (a b : Nat) (t : List Nat) :
    swap_odd_bytes (a :: b :: t) = b :: a :: swap_odd_bytes t := by
  unfold swap_odd_bytes
  simp only [evens, odds, List.zip_cons_cons, List.map_cons, List.flatten_cons,
    List.length_cons, List.cons_append, List.nil_append, List.append_assoc]
  rw [swap_tail_eq]

theorem swap_odd_bytes_eq_swapPairs : ∀ l : List Nat, swap_odd_bytes l = swapPairs l
  | [] => rfl
  | [a] => rfl
  | a :: b :: t => by
      rw [swap_odd_bytes_cons_cons, swap_odd_bytes_eq_swapPairs t]; rfl

theorem swapPairs_involution : ∀ l : List Nat, swapPairs (swapPairs l) = l
  | [] => rfl
  | [a] => rfl
  | a :: b :: t => by
      show a :: b :: swapPairs (swapPairs t) = a :: b :: t
      rw [swapPairs_involution t]

/-- The native little-endian file magic, `b'?#$~tracebuffer\0'`. -/
def magic_little : List Nat :=
  [0x3F, 0x23, 0x24, 0x7E, 0x74, 0x72, 0x61, 0x63,
   0x65, 0x62, 0x75, 0x66, 0x66, 0x65, 0x72, 0x00]

/-- The big-endian file magic, `b'cart~$#?' + b'\0reffube'`. -/
def magic_big : List Nat :=
  [0x63, 0x61, 0x72, 0x74, 0x7E, 0x24, 0x23, 0x3F,
   0x00, 0x72, 0x65, 0x66, 0x66, 0x75, 0x62, 0x65]

/-- The byte-swapped legacy magic, `b'#?~$rtcabefuef\0r'`. -/
def magic_legacy : List Nat :=
  [0x23, 0x3F, 0x7E, 0x24, 0x72, 0x74, 0x63, 0x61,
   0x62, 0x65, 0x66, 0x75, 0x65, 0x66, 0x00, 0x72]

/-- C10: `swap_odd_bytes` is an involution on byte strings of every length
(even or odd), and applying it once to the byte-swapped legacy magic yields
the native little-endian magic. -/
theorem swap_odd_bytes_involution :
    (∀ l : List Nat, swap_odd_bytes (swap_odd_bytes l) = l) ∧
      swap_odd_bytes magic_legacy = magic_little := by
  constructor
  · intro l
    rw [swap_odd_bytes_eq_swapPairs, swap_odd_bytes_eq_swapPairs, swapPairs_involution]
  · rw [swap_odd_bytes_eq_swapPairs]
    decide

/-- Little-endian byte encoding of `n` in `width` bytes (used to build
concrete trace files and in the MD5 length field). -/
def le_bytes (width n : Nat) : List Nat :=
  (List.range width).map fun i => (n >>> (8 * i)) % 256

/-- MD5 per-step left-rotate amounts (RFC 1321).  `hashlib.md5` is external
to the repository; the algorithm is modelled from its specification. -/
def md5_s : List Nat :=
  [7, 12, 17, 22, 7, 12, 17, 22, 7, 12, 17, 22, 7, 12, 17, 22,
   5, 9, 14, 20, 5, 9, 14, 20, 5, 9, 14, 20, 5, 9, 14, 20,
   4, 11, 16, 23, 4, 11, 16, 23, 4, 11, 16, 23, 4, 11, 16, 23,
   6, 10, 15, 21, 6, 10, 15, 21, 6, 10, 15, 21, 6, 10, 15, 21]

/-- MD5 sine-derived constants `K[i] = floor(2^32 * abs(sin(i+1)))` (RFC 1321). -/
def md5_K : List Nat :=
  [0xd76aa478, 0xe8c7b756, 0x242070db, 0xc1bdceee,
   0xf57c0faf, 0x4787c62a, 0xa8304613, 0xfd469501,
   0x698098d8, 0x8b44f7af, 0xffff5bb1, 0x895cd7be,
   0x6b901122, 0xfd987193, 0xa679438e, 0x49b40821,
   0xf61e2562, 0xc040b340, 0x265e5a51, 0xe9b6c7aa,
   0xd62f105d, 0x02441453, 0xd8a1e681, 0xe7d3fbc8,
   0x21e1cde6, 0xc33707d6, 0xf4d50d87, 0x455a14ed,
   0xa9e3e905, 0xfcefa3f8, 0x676f02d9, 0x8d2a4c8a,
   0xfffa3942, 0x8771f681, 0x6d9d6122, 0xfde5380c,
   0xa4beea44, 0x4bdecfa9, 0xf6bb4b60, 0xbebfbc70,
   0x289b7ec6, 0xeaa127fa, 0xd4ef3085, 0x04881d05,
   0xd9d4d039, 0xe6db99e5, 0x1fa27cf8, 0xc4ac5665,
   0xf4292244, 0x432aff97, 0xab9423a7, 0xfc93a039,
   0x655b59c3, 0x8f0ccc92, 0xffeff47d, 0x85845dd1,
   0x6fa87e4f, 0xfe2ce6e0, 0xa3014314, 0x4e0811a1,
   0xf7537e82, 0xbd3af235, 0x2ad7d2bb, 0xeb86d391]

/-- 32-bit left rotation (operand assumed `< 2^32`). -/
def rotl32 (x n : Nat) : Nat :=
  ((x <<< n) ||| (x >>> (32 - n))) % (2 ^ 32)

/-- MD5 padding: append `0x80`, zero bytes up to 56 mod 64, then the
64-bit little-endian bit length. -/
def md5_pad (msg : List Nat) : List Nat :=
  let len := msg.length
  let zeros := (56 + 64 - ((len + 1) % 64)) % 64
  msg ++ [0x80] ++ List.replicate zeros 0 ++ le_bytes 8 ((8 * len) % 2 ^ 64)

/-- The sixteen little-endian 32-bit words of a 64-byte MD5 chunk. -/
def md5_words (chunk : List Nat) : List Nat :=
  (List.range 16).map fun j =>
    chunk.getD (4 * j) 0 + 256 * chunk.getD (4 * j + 1) 0 +
      65536 * chunk.getD (4 * j + 2) 0 + 16777216 * chunk.getD (4 * j + 3) 0

/-- One of the 64 MD5 steps. -/
def md5_round (m : List Nat) (st : Nat × Nat × Nat × Nat) (i : Nat) :
    Nat × Nat × Nat × Nat :=
  let mask := 0xffffffff
  let a := st.1
  let b := st.2.1
  let c := st.2.2.1
  let d := st.2.2.2
  let fg : Nat × Nat :=
    if i < 16 then ((b &&& c) ||| ((mask ^^^ b) &&& d), i)
    else if i < 32 then ((d &&& b) ||| ((mask ^^^ d) &&& c), (5 * i + 1) % 16)
    else if i < 48 then (b ^^^ c ^^^ d, (3 * i + 5) % 16)
    else (c ^^^ (b ||| (mask ^^^ d)), (7 * i) % 16)
  let f2 := (fg.1 + a + md5_K.getD i 0 + m.getD fg.2 0) % 2 ^ 32
  (d, (b + rotl32 f2 (md5_s.getD i 0)) % 2 ^ 32, b, c)

/-- Process one 64-byte chunk. -/
def md5_chunk (st : Nat × Nat × Nat × Nat) (chunk : List Nat) :
    Nat × Nat × Nat × Nat :=
  let m := md5_words chunk
  let r := (List.range 64).foldl (md5_round m) st
  ((st.1 + r.1) % 2 ^ 32, (st.2.1 + r.2.1) % 2 ^ 32,
   (st.2.2.1 + r.2.2.1) % 2 ^ 32, (st.2.2.2 + r.2.2.2) % 2 ^ 32)

/-- `hashlib.md5(msg).digest()` as a list of 16 bytes, modelled from
RFC 1321.  The source feeds the 4-byte size field and the record body
through `update`, which equals hashing their concatenation. -/
def md5Bytes (msg : List Nat) : List Nat :=
  let padded := md5_pad msg
  let st := (List.range (padded.length / 64)).foldl
    (fun st i => md5_chunk st ((padded.drop (64 * i)).take 64))
    (0x67452301, 0xefcdab89, 0x98badcfe, 0x10325476)
  le_bytes 4 st.1 ++ le_bytes 4 st.2.1 ++ le_bytes 4 st.2.2.1 ++ le_bytes 4 st.2.2.2

/-- UTF-8 decoding with `errors="ignore"`: bytes to code points, modelled
from the UTF-8 specification.  Valid sequences (including the surrogate
and range checks CPython performs) decode exactly; an invalid byte is
skipped.  (CPython's "ignore" may skip a maximal invalid subpart of more
than one byte; the development only evaluates this function on valid
UTF-8 / ASCII input, where the two agree.) -/
def utf8_aux : Nat → List Nat → List Nat
  | 0, _ => []
  | _, [] => []
  | fuel + 1, b :: rest =>
    if b < 0x80 then b :: utf8_aux fuel rest
    else if 0xC2 ≤ b ∧ b ≤ 0xDF then
      match rest with
      | c1 :: rest2 =>
          if 0x80 ≤ c1 ∧ c1 ≤ 0xBF then
            ((b - 0xC0) * 64 + (c1 - 0x80)) :: utf8_aux fuel rest2
          else utf8_aux fuel rest
      | [] => []
    else if 0xE0 ≤ b ∧ b ≤ 0xEF then
      match rest with
      | c1 :: c2 :: rest2 =>
          if ((if b = 0xE0 then 0xA0 else 0x80) ≤ c1 ∧
              c1 ≤ (if b = 0xED then 0x9F else 0xBF)) ∧
             (0x80 ≤ c2 ∧ c2 ≤ 0xBF) then
            ((b - 0xE0) * 4096 + (c1 - 0x80) * 64 + (c2 - 0x80)) :: utf8_aux fuel rest2
          else utf8_aux fuel rest
      | _ => []
    else if 0xF0 ≤ b ∧ b ≤ 0xF4 then
      match rest with
      | c1 :: c2 :: c3 :: rest2 =>
          if ((if b = 0xF0 then 0x90 else 0x80) ≤ c1 ∧
              c1 ≤ (if b = 0xF4 then 0x8F else 0xBF)) ∧
             (0x80 ≤ c2 ∧ c2 ≤ 0xBF) ∧ (0x80 ≤ c3 ∧ c3 ≤ 0xBF) then
            ((b - 0xF0) * 262144 + (c1 - 0x80) * 4096 + (c2 - 0x80) * 64 + (c3 - 0x80)) ::
              utf8_aux fuel rest2
          else utf8_aux fuel rest
      | _ => []
    else utf8_aux fuel rest

def utf8_decode_ignore (b : List Nat) : List Nat := utf8_aux b.length b

/-- `unicodedata.category(ch)[0] == "C"`: exact for code points below
0x250 (category Cc is 0x00-0x1F and 0x7F-0x9F; the only Cf point below
0x250 is the soft hyphen 0xAD).  The theorems only evaluate this on
ASCII. -/
def unicode_cat_c (cp : Nat) : Bool :=
  cp < 0x20 || (0x7F ≤ cp && cp ≤ 0x9F) || cp = 0xAD

/-- Lowercase hexadecimal digits of `n`, zero-padded to at least two
(Python's `f"\x7bord(ch):02x\x7d"`). -/
def hex2 (n : Nat) : List Char :=
  let ds := Nat.toDigits 16 n
  if ds.length < 2 then '0' :: ds else ds

/-- `validate_charsinformat` from the source `decode`: control characters
other than NUL are escaped (`\n`, `\t`, `\r`, or `\xNN`). -/
def escape_char (cp : Nat) : List Char :=
  if unicode_cat_c cp ∧ cp ≠ 0 then
    if cp = 10 then ['\\', 'n']
    else if cp = 9 then ['\\', 't']
    else if cp = 13 then ['\\', 'r']
    else '\\' :: 'x' :: hex2 cp
  else [Char.ofNat cp]

/-- `decode(b)` from the source: UTF-8 decode with `errors="ignore"`,
then escape control characters. -/
def decode (b : List Nat) : String :=
  ⟨((utf8_decode_ignore b).map escape_char).flatten⟩

/-- One match of the source's `format_regex`, with its named groups. -/
structure FmtMatch where
  flags : Option Char
  min_field_width : Option String
  precision : Option String
  length_mod : Option String
  conversion_specifier : Char
deriving DecidableEq

def is_conv (c : Char) : Bool :=
  c = 'c' || c = 'd' || c = 'u' || c = 'x' || c = 'X' || c = 'e' || c = 'E' ||
    c = 'f' || c = 'g' || c = 'G' || c = 's' || c = 'p' || c = 'o' || c = 'i'

def is_flag (c : Char) : Bool :=
  c = '#' || c = '0' || c = '-' || c = 'I' || c = Char.ofNat 39 || c = '+'

def is_digit (c : Char) : Bool := '0' ≤ c && c ≤ '9'

/-- Parse the `min_field_width` group (`[0-9]+|\*`).  `[0-9]+` is greedy;
no digit can start the precision/length/conversion groups, so taking the
maximal run is equivalent to the regex's backtracking. -/
def parse_width (s : List Char) : Option String × List Char :=
  let ds := s.takeWhile is_digit
  if ds ≠ [] then (some ⟨ds⟩, s.drop ds.length)
  else match s with
    | '*' :: rest => (some "*", rest)
    | _ => (none, s)

/-- Parse the `precision` group (`\.([0-9]+|\*n)?`). -/
def parse_precision (s : List Char) : Option String × List Char :=
  match s with
  | '.' :: r =>
      let ds := r.takeWhile is_digit
      if ds ≠ [] then (some ⟨'.' :: ds⟩, r.drop ds.length)
      else match r with
        | '*' :: 'n' :: r2 => (some ".*n", r2)
        | _ => (some ".", r)
  | _ => (none, s)

def try_length_mod (cand : List Char) (s : List Char) : Option (String × Char × List Char) :=
  if cand.isPrefixOf s then
    match s.drop cand.length with
    | c :: rest => if is_conv c then some (⟨cand⟩, c, rest) else none
    | [] => none
  else none

/-- Parse the `length` group followed by the mandatory conversion
specifier.  The alternatives are tried in the regex's order
(`hh|h|l|ll|j|z|L`), with backtracking collapsed into "first alternative
whose following character is a conversion specifier" (only the
conversion can follow the length group). -/
def parse_length_conv (s : List Char) : Option (Option String × Char × List Char) :=
  match [['h','h'], ['h'], ['l'], ['l','l'], ['j'], ['z'], ['L']].findSome?
      (fun cand => try_length_mod cand s) with
  | some (l, c, rest) => some (some l, c, rest)
  | none =>
      match s with
      | c :: rest => if is_conv c then some (none, c, rest) else none
      | [] => none

/-- Parse width/precision/length/conversion (everything after the flags). -/
def match_after_flags (s : List Char) : Option (FmtMatch × List Char) :=
  let (w, s1) := parse_width s
  let (p, s2) := parse_precision s1
  match parse_length_conv s2 with
  | some (l, c, rest) =>
      some ({ flags := none, min_field_width := w, precision := p,
              length_mod := l, conversion_specifier := c }, rest)
  | none => none

/-- Parse the directive after the `%`: optional single flag first (the
regex tries the flag-present alternative first), falling back to the
flagless parse if the remainder fails. -/
def match_directive (s : List Char) : Option (FmtMatch × List Char) :=
  match s with
  | c :: rest =>
      if is_flag c then
        match match_after_flags rest with
        | some (m, r) => some ({ m with flags := some c }, r)
        | none => match_after_flags s
      else match_after_flags s
  | [] => none

/-- Try to match `format_regex` at the start of `s` (which must begin with
a run of `L` percent signs): greedily consume `j` literal `%%` pairs
(`j` maximal first, as the regex backtracks from the longest), then one
`%` and the directive. -/
def try_match_at (s : List Char) : Option (FmtMatch × List Char) :=
  let l := (s.takeWhile (· = '%')).length
  if l = 0 then none
  else
    ((List.range ((l - 1) / 2 + 1)).reverse).findSome? fun j =>
      match_directive (s.drop (2 * j + 1))

/-- A token of the scanned format string: a literal character or a
directive match. -/
inductive FmtToken where
  | lit (c : Char)
  | dir (m : FmtMatch)
deriving DecidableEq

/-- Scan a format string for `format_regex` matches left to right
(`re.finditer` / `re.sub` traversal).  `prev` is the character before the
current position, for the `(?<!%)` look-behind. -/
def scan_formats : Nat → Option Char → List Char → List FmtToken
  | 0, _, _ => []
  | _, _, [] => []
  | fuel + 1, prev, c :: rest =>
    if prev = some '%' then .lit c :: scan_formats fuel (some c) rest
    else
      match try_match_at (c :: rest) with
      | some (m, rest') =>
          .dir m :: scan_formats fuel (some m.conversion_specifier) rest'
      | none => .lit c :: scan_formats fuel (some c) rest

/-- `format_regex.finditer(fmt)`: the list of directive matches. -/
def format_regex_finditer (fmt : String) : List FmtMatch :=
  (scan_formats fmt.data.length none fmt.data).filterMap fun t =>
    match t with
    | .dir m => some m
    | .lit _ => none

/-- `build_new_format(match)` from the source. -/
def build_new_format (m : FmtMatch) : List Char :=
  if m.conversion_specifier = 'p' then
    ('0' :: 'x' :: '%' :: []) ++
      (match m.flags with | some f => [f] | none => ['0']) ++
      (match m.min_field_width with | some w => w.data | none => ['0']) ++
      (match m.precision with | some p => p.data | none => ['.', '0']) ++
      ['x']
  else
    '%' ::
      ((match m.flags with | some f => [f] | none => []) ++
       (match m.min_field_width with | some w => w.data | none => []) ++
       (match m.precision with | some p => p.data | none => []) ++
       [m.conversion_specifier])

/-- `re.sub(r'\\n', ' ', ...)`: replaces the two-character sequence
backslash-`n` (produced by `decode`'s escaping of a newline) by a space. -/
def replace_backslash_n : List Char → List Char
  | '\\' :: 'n' :: rest => ' ' :: replace_backslash_n rest
  | c :: rest => c :: replace_backslash_n rest
  | [] => []

/-- `clean_up_format(format)` from the source: substitute every
`format_regex` match by `build_new_format`, then rewrite `\n` escapes to
spaces. -/
def clean_up_format (fmt : String) : String :=
  let substituted := ((scan_formats fmt.data.length none fmt.data).map fun t =>
    match t with
    | .lit c => [c]
    | .dir m => build_new_format m).flatten
  ⟨replace_backslash_n substituted⟩

/-- A Python value produced by argument decoding.  Floating-point values
are carried as their raw bytes: IEEE float semantics is outside the
shallow embedding, and no verified property renders a float. -/
inductive PyValue where
  | int (n : Int)
  | str (s : String)
  | floatRaw (bytes : List Nat)
deriving DecidableEq

def nat_dec (n : Nat) : List Char := Nat.toDigits 10 n

def int_dec (i : Int) : List Char :=
  if i < 0 then '-' :: nat_dec i.natAbs else nat_dec i.natAbs

/-- Python `str()` of a decoded argument value (used in fallback error
messages; float reprs are not modelled). -/
def py_str (v : PyValue) : String :=
  match v with
  | .int n => ⟨int_dec n⟩
  | .str s => s
  | .floatRaw _ => "<float>"

def py_flag (c : Char) : Bool :=
  c = '-' || c = '+' || c = ' ' || c = '#' || c = '0'

def chars_to_nat (ds : List Char) : Nat :=
  ds.foldl (fun a c => a * 10 + (c.toNat - 48)) 0

def pad_chars_left (c : Char) (w : Nat) (l : List Char) : List Char :=
  List.replicate (w - l.length) c ++ l

def pad_chars_right (c : Char) (w : Nat) (l : List Char) : List Char :=
  l ++ List.replicate (w - l.length) c

/-- Render one integer conversion of CPython's `%` operator (conversions
`d`, `i`, `u`, `x`, `X`, `o`), modelled from the documented printf-style
formatting semantics. -/
def render_int (flags : List Char) (width : Nat) (prec : Option Nat) (conv : Char)
    (n : Int) : List Char :=
  let base := if conv = 'x' ∨ conv = 'X' then 16 else if conv = 'o' then 8 else 10
  let ds0 := Nat.toDigits base n.natAbs
  let ds0 := if conv = 'X' then ds0.map Char.toUpper else ds0
  let ds1 := ds0
  let ds2 := match prec with
    | some p => List.replicate (p - ds1.length) '0' ++ ds1
    | none => ds1
  let hexMark : List Char :=
    if (conv = 'x' ∨ conv = 'X') ∧ flags.contains '#' then
      ['0', if conv = 'X' then 'X' else 'x']
    else []
  let sign : List Char :=
    if n < 0 then ['-']
    else if flags.contains '+' then ['+']
    else if flags.contains ' ' then [' ']
    else []
  let core := sign ++ hexMark ++ ds2
  if width ≤ core.length then core
  else if flags.contains '-' then pad_chars_right ' ' width core
  else if flags.contains '0' ∧ prec = none then
    sign ++ hexMark ++ List.replicate (width - core.length) '0' ++ ds2
  else pad_chars_left ' ' width core

/-- Render one `%s` conversion of CPython's `%` operator. -/
def render_str (flags : List Char) (width : Nat) (prec : Option Nat)
    (s : String) : List Char :=
  let cs := match prec with
    | some p => s.data.take p
    | none => s.data
  if flags.contains '-' then pad_chars_right ' ' width cs
  else pad_chars_left ' ' width cs

def next_arg (args : List PyValue) : Except Err (PyValue × List PyValue) :=
  match args with
  | [] => .error (.typeError "not enough arguments for format string")
  | a :: r => .ok (a, r)

def as_py_int (v : PyValue) : Except Err Int :=
  match v with
  | .int n => .ok n
  | .str _ => .error (.typeError "%d format: a real number is required, not str")
  | .floatRaw _ => .error (.notModelled "float argument")

/-- CPython's `%` string-interpolation operator, modelled from its
documented semantics for the conversions the decoder can emit after
`clean_up_format` (`d i u x X o c s %`).  Floating-point conversions are
outside the embedding and yield `notModelled` (no verified property
renders a float). -/
def py_printf_aux : Nat → List Char → List PyValue → Except Err (List Char)
  | 0, _, _ => .error .outOfFuel
  | _, [], args =>
      if args.isEmpty then .ok []
      else .error (.typeError "not all arguments converted during string formatting")
  | fuel + 1, '%' :: rest, args => do
      let flags := rest.takeWhile py_flag
      let r1 := rest.drop flags.length
      let (width, r2, args) ← do
        match r1 with
        | '*' :: r => do
            let (v, args2) ← next_arg args
            let w ← as_py_int v
            pure (w.toNat, r, args2)
        | _ =>
            let ds := r1.takeWhile is_digit
            pure (chars_to_nat ds, r1.drop ds.length, args)
      let (prec, r3, args) ← do
        match r2 with
        | '.' :: r => do
            match r with
            | '*' :: r' => do
                let (v, args2) ← next_arg args
                let p ← as_py_int v
                pure (some p.toNat, r', args2)
            | _ =>
                let ds := r.takeWhile is_digit
                pure (some (chars_to_nat ds), r.drop ds.length, args)
        | _ => pure ((none : Option Nat), r2, args)
      let r4 := r3.dropWhile fun c => c = 'h' ∨ c = 'l' ∨ c = 'L'
      match r4 with
      | [] => .error (.valueError)
      | conv :: r5 =>
          if conv = '%' then do
            let tail ← py_printf_aux fuel r5 args
            pure ('%' :: tail)
          else do
            let (v, args2) ← next_arg args
            let rendered ← do
              if conv = 'd' ∨ conv = 'i' ∨ conv = 'u' ∨ conv = 'x' ∨ conv = 'X' ∨
                  conv = 'o' then do
                let n ← as_py_int v
                pure (render_int flags width prec conv n)
              else if conv = 's' then
                pure (render_str flags width prec (py_str v))
              else if conv = 'c' then
                match v with
                | .int n => pure (render_str flags width none ⟨[Char.ofNat n.toNat]⟩)
                | .str s =>
                    if s.length = 1 then pure (render_str flags width none s)
                    else .error (.typeError "%c requires int or char")
                | .floatRaw _ => .error (.notModelled "float argument")
              else if conv = 'e' ∨ conv = 'E' ∨ conv = 'f' ∨ conv = 'F' ∨ conv = 'g' ∨
                  conv = 'G' then
                .error (.notModelled "float conversion")
              else .error (.valueError)
            let tail ← py_printf_aux fuel r5 args2
            pure (rendered ++ tail)
  | fuel + 1, c :: rest, args => do
      let tail ← py_printf_aux fuel rest args
      pure (c :: tail)

/-- `fmt % tuple(args)` in Python. -/
def py_printf (fmt : String) (args : List PyValue) : Except Err String :=
  (py_printf_aux fmt.data.length fmt.data args).map fun l => ⟨l⟩


/-- The `used` counter computation from `Ringbuffer.__init__` (lines 249-252):
`next_free - last_valid` when `last_valid <= next_free`, otherwise
`(next_free + body_size) - last_valid`. -/
def ring_used (last_valid next_free body_size : Int) : Int :=
  if last_valid ≤ next_free then next_free - last_valid
  else (next_free + body_size) - last_valid

/-- C6: for in-range header values the reader's `used` counter equals
`(next_free - last_valid) mod body_size` and is non-negative. -/
theorem ring_used_eq_mod (last_valid next_free body_size : Int)
    (h1 : 0 ≤ last_valid) (h2 : last_valid < body_size)
    (h3 : 0 ≤ next_free) (h4 : next_free < body_size) (h5 : 0 < body_size) :
    ring_used last_valid next_free body_size = (next_free - last_valid) % body_size ∧
      0 ≤ ring_used last_valid next_free body_size := by
  unfold ring_used
  by_cases h : last_valid ≤ next_free
  · rw [if_pos h, Int.emod_eq_of_lt (by omega) (by omega)]
    omega
  · rw [if_neg h]
    have hself : (next_free - last_valid + body_size * 1) % body_size
        = (next_free - last_valid) % body_size :=
      Int.add_mul_emod_self_left (next_free - last_valid) body_size 1
    rw [mul_one] at hself
    rw [← hself, Int.emod_eq_of_lt (by omega) (by omega)]
    omega

/-- Witness for C6 at concrete wrapped-cursor header values. -/
theorem ring_used_eq_mod_witness :
    ring_used 3 1 5 = ((1 : Int) - 3) % 5 ∧ 0 ≤ ring_used 3 1 5 :=
  ring_used_eq_mod 3 1 5 (by decide) (by decide) (by decide) (by decide) (by decide)

/-- `get_const('mutex_len')` from the source, as a function of the
current file version `(major, minor)`. -/
def get_const_mutex_len (cv : Nat × Nat) : Except Err Nat :=
  if cv.1 = 1 ∧ cv.2 ≤ 1 then .ok 32
  else if cv.1 = 1 ∧ 2 ≤ cv.2 then .ok 64
  else .error (.runtimeError "no const for name = mutex_len")

/-- The `Definition` region (8-byte length plus name bytes). -/
structure Definition where
  size : Nat
  data : List Nat
deriving DecidableEq

/-- `Definition.__init__`: plain slicing, no bounds assert. -/
def Definition.init (file_offset : Nat) (raw : List Nat) (endian : Endian) : Definition :=
  let size := from_bytes endian (pySlice raw file_offset (file_offset + 8))
  { size := size, data := pySlice raw (file_offset + 8) ((file_offset : Int) + 8 + size) }

/-- `Ringbuffer_Entry`: one decoded ring-buffer record.  The source also
derives a wall-clock string (`timestamp_to_time`) via `datetime`/`pytz`;
that rendering is external library behaviour and is not represented. -/
structure Ringbuffer_Entry where
  location_in_file : Nat
  body_size : Nat
  body : List Nat
  offset : Nat
  pid : Nat
  tid : Nat
  timestamp_ns : Nat
  args_raw : List Nat
deriving DecidableEq

/-- `Ringbuffer_Entry.__init__`. -/
def Ringbuffer_Entry.init (body_size : Nat) (body : List Nat) (location_in_file : Nat)
    (endian : Endian) : Except Err Ringbuffer_Entry := do
  let off ← get_int body 0 6 endian false
  let pid ← get_int body 6 4 endian false
  let tid ← get_int body 10 4 endian false
  let ns ← get_int body 14 8 endian false
  let args_raw := getFrom body 22
  let _ ← py_assert (body_size = body.length) "body_size == len(body)"
  return { location_in_file := location_in_file, body_size := body_size, body := body,
           offset := off.toNat, pid := pid.toNat, tid := tid.toNat,
           timestamp_ns := ns.toNat, args_raw := args_raw }

/-- The walk's local `offset(base, value, max)` helper: add and subtract
`max` once if the result reached `max`. -/
def offset_fn (base value max : Nat) : Nat :=
  if base + value ≥ max then base + value - max else base + value

/-- Python `body[i]`, raising `IndexError` when out of range. -/
def list_index (l : List Nat) (i : Nat) : Except Err Nat :=
  match l.get? i with
  | some v => .ok v
  | none => .error .indexError

/-- Python bytearray slice assignment `s[:first] = x` (negative `first`
counts from the end; the assignment may change the length). -/
def set_slice_to (s : List Nat) (first : Int) (x : List Nat) : List Nat :=
  x ++ s.drop (pyIdx s.length first)

/-- Python bytearray slice assignment `s[first:] = y`. -/
def set_slice_from (s : List Nat) (first : Int) (y : List Nat) : List Nat :=
  s.take (pyIdx s.length first) ++ y

/-- The entry-body read of `Ringbuffer.__init__` (lines 301-309): split
the read of `entry_body_size` bytes at `tmp_last_valid` into at most two
contiguous copies (up to `body_size`, then from offset `0`). -/
def entry_body_read (body : List Nat) (body_size tmp_last_valid entry_body_size : Nat) :
    Except Err (List Nat) := do
  let till_wrapped : Int := (body_size : Int) - tmp_last_valid
  let first_part_size : Int := min (entry_body_size : Int) till_wrapped
  let x ← get body tmp_last_valid first_part_size
  let eb1 := set_slice_to (List.replicate entry_body_size 0) first_part_size x
  let second_part_size : Int := max ((entry_body_size : Int) - first_part_size) 0
  let y ← get body 0 second_part_size
  return set_slice_from eb1 first_part_size y

/-- Outcome of one iteration of the ring-buffer walk. -/
inductive IterOut where
  | stop
  | advance (lv : Nat) (entry : Option Ringbuffer_Entry)
deriving DecidableEq

/-- One iteration of the `while` loop of `Ringbuffer.__init__`
(lines 272-328).  The `ringbuffer_valid` flag of the source only
suppresses repeated log messages and has no effect on the decoded data,
so it is not represented. -/
def ring_iter (body : List Nat) (body_size next_free : Nat) (recover_all : Bool)
    (endian : Endian) (ringbody_fileoff lv : Nat) (visited : List Nat) :
    Except Err IterOut :=
  if lv = next_free ∧ ¬recover_all then .ok .stop
  else if visited.contains lv then .ok .stop
  else
    (list_index body (offset_fn lv 0 body_size)).bind fun b0 =>
    if b0 ≠ 126 then .ok (.advance (offset_fn lv 1 body_size) none)
    else
      (list_index body (offset_fn lv 1 body_size)).bind fun b1 =>
      (list_index body (offset_fn lv 2 body_size)).bind fun b2 =>
      (list_index body (offset_fn lv 3 body_size)).bind fun b3 =>
      if crc8 [b0, b1, b2, b3] 0 ≠ 0 then .ok (.advance (offset_fn lv 1 body_size) none)
      else
        let tmp_last_valid := offset_fn lv 4 body_size
        let entry_body_size := from_bytes endian [b1, b2] + 1
        (entry_body_read body body_size tmp_last_valid entry_body_size).bind fun entry_body =>
        if crc8 entry_body 0 ≠ 0 then .ok (.advance (offset_fn lv 1 body_size) none)
        else
          let new_last_valid := offset_fn lv (4 + entry_body_size) body_size
          (Ringbuffer_Entry.init (entry_body_size - 1) entry_body.dropLast
            (ringbody_fileoff + lv) endian).bind fun entry =>
          .ok (.advance new_last_valid (some entry))

/-- The ring-buffer walk, with fuel for the `while` loop.  Returns the
decoded entries and the visited start positions (`start_positions` in the
source). -/
def ring_walk_aux (body : List Nat) (body_size next_free : Nat) (recover_all : Bool)
    (endian : Endian) (ringbody_fileoff : Nat) :
    Nat → Nat → List Nat → List Ringbuffer_Entry →
    Except Err (List Ringbuffer_Entry × List Nat)
  | 0, _, _, _ => .error .outOfFuel
  | fuel + 1, lv, visited, acc => do
    match ← ring_iter body body_size next_free recover_all endian ringbody_fileoff
        lv visited with
    | .stop => return (acc, visited)
    | .advance lv2 ent =>
        ring_walk_aux body body_size next_free recover_all endian ringbody_fileoff
          fuel lv2 (lv :: visited)
          (match ent with | some e => acc ++ [e] | none => acc)

/-- The ring-buffer walk with its fuel instantiated; the termination
theorem shows this fuel is never exhausted, so the definition coincides
with the source's unbounded `while` loop. -/
def ring_walk (body : List Nat) (body_size next_free : Nat) (recover_all : Bool)
    (endian : Endian) (ringbody_fileoff last_valid : Nat) :
    Except Err (List Ringbuffer_Entry × List Nat) :=
  ring_walk_aux body body_size next_free recover_all endian ringbody_fileoff
    (2 * body_size + 2) last_valid [] []

/-- `Ringbuffer`: the parsed ring-buffer region.  `header_entries_count`,
`mutex_locked`, the walk's `start_positions` (as `visited`) and the
`missing_tracepoint_cound` computation are locals of the source
constructor, exposed as fields for the verified properties.  The source's
copy of `raw` is not duplicated. -/
structure Ringbuffer where
  version : Nat
  mutex_locked : Bool
  body_size : Nat
  wrapped : Nat
  dropped : Nat
  header_entries_count : Nat
  next_free : Nat
  last_valid : Nat
  used : Int
  entries : List Ringbuffer_Entry
  visited : List Nat
  missing_tracepoint_cound : Int
deriving DecidableEq

/-- `Ringbuffer.__init__`. -/
def Ringbuffer.init (file_offset : Nat) (raw : List Nat) (recover_all : Bool)
    (endian : Endian) (cv : Nat × Nat) : Except Err Ringbuffer := do
  let mutex_len ← get_const_mutex_len cv
  let version ← get_int raw file_offset 8 endian false
  let mutex ← get raw (file_offset + 8) mutex_len
  let mutex_locked := mutex.any fun b => b != 0
  let body_size ← get_int raw (file_offset + mutex_len + 8) 8 endian false
  let wrapped ← get_int raw (file_offset + mutex_len + 16) 8 endian false
  let dropped ← get_int raw (file_offset + mutex_len + 24) 8 endian false
  let header_entries_count ← get_int raw (file_offset + mutex_len + 32) 8 endian false
  let next_free ← get_int raw (file_offset + mutex_len + 40) 8 endian false
  let last_valid ← get_int raw (file_offset + mutex_len + 48) 8 endian false
  let _reserved ← get raw (file_offset + mutex_len + 56) 40
  let ringbody_fileoff := file_offset + mutex_len + 56 + 40
  let used := ring_used last_valid next_free body_size
  let _ ← py_assert (0 ≤ used) "0 <= used"
  let walk ←
    (if header_entries_count ≠ 0 then
      (get raw (file_offset + mutex_len + 96) body_size).bind fun body =>
      (py_assert ((body.length : Int) = body_size) "len(body) == body_size").bind fun _ =>
      ring_walk body body_size.toNat next_free.toNat recover_all endian
        ringbody_fileoff last_valid.toNat
    else Except.ok ([], []))
  let missing := max 0 (header_entries_count -
    ((walk.1.length : Int) + dropped + (if mutex_locked then 1 else 0)))
  return { version := version.toNat, mutex_locked := mutex_locked,
           body_size := body_size.toNat, wrapped := wrapped.toNat,
           dropped := dropped.toNat, header_entries_count := header_entries_count.toNat,
           next_free := next_free.toNat, last_valid := last_valid.toNat,
           used := used, entries := walk.1, visited := walk.2,
           missing_tracepoint_cound := missing }

/-- `Stack_Entry`: one hash-validated metadata record.  (The source names
its span fields `begin`/`end`; `end` is reserved in Lean.) -/
structure Stack_Entry where
  hash : List Nat
  body : List Nat
  body_size : Nat
  file_offset : Nat
  begin_ : Nat
  end_ : Nat
deriving DecidableEq

/-- `Stack_Entry.__init__`: head CRC, fields, and the
`md5(size_field || body) == hash` check. -/
def Stack_Entry.init (file_offset : Nat) (raw : List Nat) (endian : Endian) :
    Except Err Stack_Entry := do
  let head ← get raw file_offset 29
  let _ ← py_assert (crc8 head 0 = 0) "head crc of stack entry invalid"
  let hash ← get raw file_offset 16
  let _reserved ← get raw (file_offset + 16) 8
  let body_size ← get_int raw (file_offset + 24) 4 endian false
  let _crc ← get raw (file_offset + 28) 1
  let body ← get raw (file_offset + 29) body_size
  let size_field ← get raw (file_offset + 24) 4
  let _ ← py_assert (md5Bytes (size_field ++ body) = hash) "invalid md5 in stack entry"
  return { hash := hash, body := body, body_size := body_size.toNat,
           file_offset := file_offset + 29, begin_ := file_offset + 29,
           end_ := file_offset + 29 + body_size.toNat }

def Stack_Entry.get_total_size (e : Stack_Entry) : Nat := 29 + e.body_size

/-- The metadata stack region. -/
structure Stack where
  file_offset : Nat
  version : Nat
  entries : List Stack_Entry
deriving DecidableEq

/-- The `while offset < stack_body_size` loop of `Stack.__init__`, with
fuel.  Every parsed entry advances `offset` by at least 29, so fuel
`stack_body_size + 1` is never exhausted. -/
def stack_walk (raw : List Nat) (endian : Endian) (base stack_body_size : Nat) :
    Nat → Nat → List Stack_Entry → Except Err (List Stack_Entry)
  | 0, _, _ => .error .outOfFuel
  | fuel + 1, offset, acc =>
    if offset < stack_body_size then do
      let entry ← Stack_Entry.init (base + offset) raw endian
      stack_walk raw endian base stack_body_size fuel
        (offset + entry.get_total_size) (acc ++ [entry])
    else .ok acc

/-- `Stack.__init__`. -/
def Stack.init (file_offset : Nat) (raw : List Nat) (endian : Endian) (cv : Nat × Nat) :
    Except Err Stack := do
  let mutex_len ← get_const_mutex_len cv
  let version ← get_int raw file_offset 8 endian false
  let _ ← py_assert (version = 1) "version == 1"
  let _mutex ← get raw (file_offset + 8) mutex_len
  let _reserved ← get raw (file_offset + mutex_len + 8) 40
  let stack_body_size ← get_int raw (file_offset + mutex_len + 48) 8 endian false
  let _ ← py_assert (stack_body_size ≤ (raw.length : Int) - file_offset)
    "stack_size must be false"
  let base := file_offset + mutex_len + 56
  let entries ← stack_walk raw endian base stack_body_size.toNat
    (stack_body_size.toNat + 1) 0 []
  return { file_offset := file_offset, version := version.toNat, entries := entries }

/-- `Stack.get_blob(offset)`: the record whose `[begin, end)` span
contains the offset, else `None`. -/
def Stack.get_blob (s : Stack) (offset : Nat) : Option Stack_Entry :=
  s.entries.find? fun e => decide (e.begin_ ≤ offset) && decide (offset < e.end_)

/-- Python `str.split(sep)` for a one-character separator (the kernel
cannot reduce `String.splitOn`, so the split is done on the character
list). -/
def split_chars_aux (sep : Char) : List Char → List Char → List (List Char)
  | [], cur => [cur.reverse]
  | c :: rest, cur =>
      if c = sep then cur.reverse :: split_chars_aux sep rest []
      else split_chars_aux sep rest (c :: cur)

def split_chars (sep : Char) (l : List Char) : List (List Char) :=
  split_chars_aux sep l []

/-- `bytes.find(0)`: index of the first NUL, `-1` when absent. -/
def bytes_find_zero : List Nat → Int
  | [] => -1
  | b :: rest =>
      if b = 0 then 0
      else if bytes_find_zero rest < 0 then -1 else bytes_find_zero rest + 1

/-- `DynamicTraceentry`: an `offset_tag == 1` entry with inline payload
`{source_file NUL, line:8B, format_string NUL}`. -/
structure DynamicTraceentry where
  entry : Ringbuffer_Entry
  file : String
  line : Nat
  formatted : String
deriving DecidableEq

/-- `DynamicTraceentry.__init__`. -/
def DynamicTraceentry.init (entry : Ringbuffer_Entry) (endian : Endian) :
    Except Err DynamicTraceentry := do
  let body := getFrom entry.body 22
  let file_length := bytes_find_zero body
  let fileB ← get body 0 file_length
  let line ← get_int body (file_length + 1) 8 endian false
  let formatted := decode (getFrom body (file_length + 8 + 1)).dropLast
  return { entry := entry, file := decode fileB, line := line.toNat,
           formatted := formatted }

/-- `StaticTraceentry.type_mapping`. -/
def type_mapping (c : Char) : Option String :=
  if c = 'c' then some "uint8"
  else if c = 'C' then some "int8"
  else if c = 'w' then some "uint16"
  else if c = 'W' then some "int16"
  else if c = 'i' then some "uint32"
  else if c = 'I' then some "int32"
  else if c = 'l' then some "uint64"
  else if c = 'L' then some "int64"
  else if c = 'q' then some "uint128"
  else if c = 'Q' then some "int128"
  else if c = 'f' then some "float"
  else if c = 'd' then some "double"
  else if c = 's' then some "char*"
  else if c = 'x' then some "<dump>"
  else if c = 'p' then some "pointer"
  else none

/-- `StaticTraceentry.arg_type_to_string`. -/
def arg_type_to_string (c : Char) : String :=
  (type_mapping c).getD ("unknown type \"" ++ ⟨[c]⟩ ++ "\"")

/-- Uppercase two-digit hex of a byte (Python `f"\x7bx:02X\x7d"`). -/
def byte_hex_upper (b : Nat) : String :=
  ⟨(hex2 b).map Char.toUpper⟩

/-- Python `sep.join(parts)`. -/
def str_join_sep (sep : String) : List String → String
  | [] => ""
  | [s] => s
  | s :: rest => s ++ sep ++ str_join_sep sep rest

/-- `StaticTraceentry.get_arg`: decode one typed argument from the raw
payload.  Float and double values are carried as raw bytes (IEEE
interpretation is outside the embedding). -/
def get_arg (raw : List Nat) (offset : Int) (t : String) (format : FmtMatch)
    (endian : Endian) : Except Err (Int × PyValue) := do
  if t = "uint8" then
    let v ← get_int raw offset 1 endian false
    return (offset + 1, .int v)
  else if t = "int8" then
    let v ← get_int raw offset 1 endian true
    return (offset + 1, .int v)
  else if t = "uint16" then
    let v ← get_int raw offset 2 endian false
    return (offset + 2, .int v)
  else if t = "int16" then
    let v ← get_int raw offset 2 endian true
    return (offset + 2, .int v)
  else if t = "uint32" then
    let v ← get_int raw offset 4 endian false
    return (offset + 4, .int v)
  else if t = "int32" then
    let v ← get_int raw offset 4 endian true
    return (offset + 4, .int v)
  else if t = "uint64" ∨ t = "pointer" then
    let v ← get_int raw offset 8 endian false
    return (offset + 8, .int v)
  else if t = "int64" then
    let v ← get_int raw offset 8 endian true
    return (offset + 8, .int v)
  else if t = "uint128" then
    let v ← get_int raw offset 16 endian false
    return (offset + 16, .int v)
  else if t = "int128" then
    let v ← get_int raw offset 16 endian true
    return (offset + 16, .int v)
  else if t = "float" then
    let bs ← get raw offset 4
    return (offset + 4, .floatRaw bs)
  else if t = "double" then
    let bs ← get raw offset 8
    return (offset + 8, .floatRaw bs)
  else if t = "char*" then
    if format.conversion_specifier = 's' then
      let string_length ← get_int raw offset 4 endian false
      let v ← get raw (offset + 4) string_length
      let cs := (decode v).data
      let cs := if cs ≠ [] ∧ cs.getLast? = some (Char.ofNat 0) then cs.dropLast else cs
      return (offset + 4 + string_length, .str ⟨cs⟩)
    else if format.conversion_specifier = 'p' then
      let v ← get_int raw offset 8 endian false
      return (offset + 8, .int v)
    else throw (.runtimeError "char* but not s or p in format")
  else if t = "<dump>" then
    let string_length ← get_int raw offset 4 endian false
    let v ← get raw (offset + 4) string_length
    return (offset + 4 + string_length, .str (str_join_sep " " (v.map byte_hex_upper)))
  else throw (.assertionError "type unkown")

/-- The metadata-descriptor fields `StaticTraceentry.__init__` computes
before its first `try` block (lines 415-464). -/
structure StaticMeta where
  meta_in_file_offset : Nat
  metaentry_in_metablob : Int
  type : Nat
  meta_size : Nat
  raw_meta : List Nat
  line : Nat
  argument_count : Nat
  argument_type_array : List Char
  arg_types : List String
  string : String
  file : String
  format : String
deriving DecidableEq

/-- The descriptor-parsing part of `StaticTraceentry.__init__` (before
the first `try`); its exceptions are NOT caught and propagate out of the
`Tracebuffer` constructor.  When the meta-entry type is unsupported, the
source's assert message itself evaluates the non-existent attribute
`self.in_file`, so an `AttributeError` is raised (line 430). -/
def static_stage_a (entry : Ringbuffer_Entry) (meta : Option Stack_Entry)
    (endian : Endian) : Except Err StaticMeta := do
  match meta with
  | none => throw .attributeError
  | some meta =>
    let mifo ← get_int entry.body 0 6 endian false
    let mib : Int := mifo - meta.file_offset
    let _ ← py_assert (0 ≤ mib ∧ mib ≤ (meta.body.length : Int))
      "0 <= metaentry_in_metablob <= len(meta.body)"
    let magic ← get meta.body mib 1
    let _ ← py_assert (magic = [123]) "magic =/= \x7b"
    let ty ← get_int meta.body (mib + 5) 1 endian false
    let _ ← py_check (ty = 1 ∨ ty = 2) .attributeError
    let meta_size ← get_int meta.body (mib + 1) 4 endian false
    let raw_meta ← get meta.body mib meta_size
    let line ← get_int meta.body (mib + 6) 4 endian false
    let argument_count ← get_int meta.body (mib + 10) 1 endian false
    let argument_type_array ← get meta.body (mib + 11) (argument_count + 1)
    let _ ← py_assert (argument_type_array.getLast? = some 0)
      "argument_type_array[-1] == 0"
    let ata_chars := (argument_type_array.take argument_count.toNat).map Char.ofNat
    let arg_types := ata_chars.map arg_type_to_string
    let stringB ← get meta.body (mib + 12 + argument_count)
      (meta_size - 12 - argument_count)
    let string := decode stringB
    match split_chars (Char.ofNat 0) string.data with
    | [file, format, rest] =>
        let _ ← py_assert (rest = []) "len(_) == 0"
        let format : String := if ty = 2 then ⟨format⟩ ++ " =(dump)= \"%s\"" else ⟨format⟩
        return { meta_in_file_offset := mifo.toNat, metaentry_in_metablob := mib,
                 type := ty.toNat, meta_size := meta_size.toNat, raw_meta := raw_meta,
                 line := line.toNat, argument_count := argument_count.toNat,
                 argument_type_array := ata_chars, arg_types := arg_types,
                 string := string, file := ⟨file⟩, format := format }
    | _ => throw .valueError

/-- The argument-extraction loop of `StaticTraceentry.__init__`
(lines 469-473): `n` iterations from index `i`, threading `offset`.
On failure the partially collected `self.args` list is returned with the
exception (`formats[i]` out of range raises `IndexError`). -/
def extract_args_loop (raw : List Nat) (endian : Endian) (arg_types : List String)
    (formats : List FmtMatch) :
    Nat → Nat → Int → Except (Err × List PyValue) (List PyValue)
  | 0, _, _ => .ok []
  | n + 1, i, offset =>
    match arg_types.get? i with
    | none => .error (.indexError, [])
    | some t =>
      match formats.get? i with
      | none => .error (.indexError, [])
      | some f =>
        match get_arg raw offset t f endian with
        | .error e => .error (e, [])
        | .ok (offset2, v) =>
          match extract_args_loop raw endian arg_types formats n (i + 1) offset2 with
          | .error (e, partial_args) => .error (e, v :: partial_args)
          | .ok rest => .ok (v :: rest)

/-- Python `str()` of the exception value, used inside the fallback
message (`IndexError` prints "list index out of range"; the appended
traceback text of the source is not reproduced). -/
def err_text (e : Err) : String :=
  match e with
  | .assertionError m => m
  | .indexError => "list index out of range"
  | .valueError => "not enough values to unpack"
  | .attributeError => "attribute error"
  | .runtimeError m => m
  | .typeError m => m
  | .notModelled m => m
  | .outOfFuel => "out of fuel"

/-- The fallback text of the first `except` block (line 483):
`Extracting Argument failed "<format>" from <file>:<line> with <e> ...`
(the trailing `traceback.format_exc()` dump is not reproduced). -/
def extract_error_text (format file : String) (line : Nat) (e : Err) : String :=
  "Extracting Argument failed \"" ++ format ++ "\" from " ++ file ++ ":" ++
    ⟨nat_dec line⟩ ++ " with " ++ err_text e

/-- The assert message of line 475 (the source interpolates the Python
reprs of the type lists; those reprs are not reproduced verbatim). -/
def arg_count_assert_msg (m : StaticMeta) : String :=
  "argument count mismatch for format \"" ++ m.format ++ "\" at " ++
    m.file ++ ":" ++ ⟨nat_dec m.line⟩

/-- The fallback text of the second `except` block (lines 492-495). -/
def render_error_text (m : StaticMeta) (args : List PyValue) : String :=
  "formating failed for  \"" ++ m.format ++ "\" from " ++ m.file ++ ":" ++
    ⟨nat_dec m.line⟩ ++ " with args [" ++
    String.join ((m.arg_types.zip args).map fun p =>
      p.1 ++ ": \"" ++ py_str p.2 ++ "\", ") ++ "]"

/-- A fully resolved static trace point. -/
structure StaticTraceentry where
  entry : Ringbuffer_Entry
  meta : StaticMeta
  args : List PyValue
  formatted : String
deriving DecidableEq

/-- The two `try` blocks of `StaticTraceentry.__init__` (lines 468-498):
argument extraction and count check (failure renders the extraction
fallback message), then printf rendering (failure renders the formatting
fallback message).  This part never raises. -/
def static_stage_b (m : StaticMeta) (entry : Ringbuffer_Entry) (endian : Endian) :
    StaticTraceentry :=
  let formats := format_regex_finditer m.format
  match extract_args_loop entry.args_raw endian m.arg_types formats
      m.argument_count 0 0 with
  | .error (e, partial_args) =>
      { entry := entry, meta := m, args := partial_args,
        formatted := extract_error_text m.format m.file m.line e }
  | .ok args =>
      if m.argument_count ≠ formats.length then
        { entry := entry, meta := m, args := args,
          formatted := extract_error_text m.format m.file m.line
            (.assertionError (arg_count_assert_msg m)) }
      else
        match (if m.argument_count ≠ 0 then py_printf (clean_up_format m.format) args
               else .ok m.format) with
        | .ok s => { entry := entry, meta := m, args := args, formatted := s }
        | .error _ =>
            { entry := entry, meta := m, args := args,
              formatted := render_error_text m args }

/-- `StaticTraceentry.__init__`. -/
def StaticTraceentry.init (entry : Ringbuffer_Entry) (meta : Option Stack_Entry)
    (endian : Endian) : Except Err StaticTraceentry := do
  let m ← static_stage_a entry meta endian
  return static_stage_b m entry endian

/-- A resolved event appended to `Tracebuffer.entries`. -/
inductive Resolved where
  | dyn (d : DynamicTraceentry)
  | stat (s : StaticTraceentry)
deriving DecidableEq

def Resolved.formatted : Resolved → String
  | .dyn d => d.formatted
  | .stat s => s.formatted

/-- The body of the per-entry resolution loop of `Tracebuffer.__init__`
(lines 652-670): `offset == 0` and invalid-magic entries are dropped
(`none`); dynamic and static entries are resolved and appended.  The
`isspace` check of the source only logs and appends the entry anyway, so
it has no semantic effect. -/
def resolve_one (raw : List Nat) (stack : Stack) (endian : Endian)
    (entry : Ringbuffer_Entry) : Except Err (Option Resolved) := do
  let in_file := entry.offset
  if in_file = 0 then return none
  else if in_file = 1 then
    let d ← DynamicTraceentry.init entry endian
    return some (.dyn d)
  else
    let stack_entry := stack.get_blob in_file
    let magic ← get raw in_file 1
    if magic = [123] then
      let s ← StaticTraceentry.init entry stack_entry endian
      return some (.stat s)
    else
      return none

/-- The resolution loop over all ring entries. -/
def resolve_entries (raw : List Nat) (stack : Stack) (endian : Endian) :
    List Ringbuffer_Entry → Except Err (List Resolved)
  | [] => .ok []
  | e :: rest => do
      let r ← resolve_one raw stack endian e
      let rs ← resolve_entries raw stack endian rest
      return (match r with | some x => x :: rs | none => rs)

/-- A parsed trace-buffer file.  The global `current_Endian` and
`current_version` of the source become the `endian` and `version` fields;
`raw_file_data` holds the (possibly legacy-byte-swapped) file bytes as in
the source. -/
structure Tracebuffer where
  raw_file_data : List Nat
  file_magic : List Nat
  endian : Endian
  file_size : Nat
  version : Nat × Nat × Nat
  definition : Definition
  ringbuffer : Ringbuffer
  stack : Stack
  entries : List Resolved
deriving DecidableEq

/-- `Tracebuffer.__init__`.  An unknown magic raises `AttributeError`
because the source's assert message reads `self.file_magic` before it is
assigned (line 617). -/
def Tracebuffer.init (raw0 : List Nat) (recover_all : Bool) : Except Err Tracebuffer := do
  let raw := if pySlice raw0 0 16 = magic_legacy then swap_odd_bytes raw0 else raw0
  let file_magic ← get raw 0 16
  let endian ←
    (if file_magic = magic_little then Except.ok Endian.little
     else if file_magic = magic_big then Except.ok Endian.big
     else Except.error Err.attributeError)
  let head ← get raw 0 56
  let _ ← py_assert (crc8 head 0 = 0) "file header crc invalid"
  let file_version ← get_int raw 16 8 endian false
  let version_major := (file_version.toNat / 0x10000) % 256
  let version_minor := (file_version.toNat / 0x100) % 256
  let version_patch := file_version.toNat % 256
  let _ ← py_assert (version_major = 1) "invalid major version"
  let _ ← py_assert (version_minor ≤ 2) "invalid minor version"
  let cv := (version_major, version_minor)
  let definition_offset ← get_int raw 24 8 endian false
  let definition := Definition.init definition_offset.toNat raw endian
  let ringbuffer_offset ← get_int raw 32 8 endian false
  let ringbuffer ← Ringbuffer.init ringbuffer_offset.toNat raw recover_all endian cv
  let stack_offset ← get_int raw 40 8 endian false
  let stack ← Stack.init stack_offset.toNat raw endian cv
  let entries ← resolve_entries raw stack endian ringbuffer.entries
  return { raw_file_data := raw, file_magic := file_magic, endian := endian,
           file_size := raw.length,
           version := (version_major, version_minor, version_patch),
           definition := definition, ringbuffer := ringbuffer, stack := stack,
           entries := entries }

/-- `genTracebuffer`: builds a `Tracebuffer` from a file's bytes and
catches every exception (logging it, setting the process exit code and
returning `None`), so one bad file never aborts the batch.  File I/O and
logging are not represented. -/
def genTracebuffer (raw : List Nat) (recover : Bool) : Option Tracebuffer :=
  match Tracebuffer.init raw recover with
  | .ok tb => some tb
  | .error _ => none

/-- The static descriptor used by the concrete example files: kind
Printf, line 7, one `uint32` argument, source file `"f"`, format `"%u"`. -/
def c2_descriptor : List Nat :=
  [123] ++ le_bytes 4 18 ++ [1] ++ le_bytes 4 7 ++ [1] ++ [105, 0] ++ [102, 0, 37, 117, 0]

/-- A 1024-byte little-endian v1.1 trace file whose 64-byte ring body
holds exactly one CRC-valid static tracepoint entry (pid, tid and
timestamp given by the parameters) whose descriptor is `c2_descriptor`
(`"%u"` with one `uint32` argument), whose argument payload is the value
42, and whose metadata stack record stores `hash` as its 16-byte MD5
field. -/
def mk_trace_file (hash : List Nat) (pid tid ts : Nat) : List Nat :=
  let entry_body := le_bytes 6 374 ++ le_bytes 4 pid ++ le_bytes 4 tid ++
    le_bytes 8 ts ++ le_bytes 4 42
  let frame := [126] ++ le_bytes 2 26 ++ [crc8 ([126] ++ le_bytes 2 26) 0] ++
    entry_body ++ [crc8 entry_body 0]
  let ring_body := frame ++ List.replicate 33 0
  let ring_region := le_bytes 8 1 ++ List.replicate 32 0 ++ le_bytes 8 64 ++
    le_bytes 8 0 ++ le_bytes 8 0 ++ le_bytes 8 1 ++ le_bytes 8 31 ++
    le_bytes 8 0 ++ List.replicate 40 0 ++ ring_body
  let stack_head := hash ++ List.replicate 8 0 ++ le_bytes 4 18
  let stack_entry := stack_head ++ [crc8 stack_head 0] ++ c2_descriptor
  let stack_region := le_bytes 8 1 ++ List.replicate 32 0 ++ List.replicate 40 0 ++
    le_bytes 8 47 ++ stack_entry
  let head55 := magic_little ++ le_bytes 8 0x010100 ++ le_bytes 8 56 ++
    le_bytes 8 65 ++ le_bytes 8 257 ++ List.replicate 7 0
  let content := head55 ++ [crc8 head55 0] ++ (le_bytes 8 1 ++ [98]) ++
    ring_region ++ stack_region
  content ++ List.replicate (1024 - content.length) 0

/-- A well-formed instance of `mk_trace_file`: the stored hash is the
correct MD5 of the size field and descriptor body. -/
def mk_c2_file (pid tid ts : Nat) : List Nat :=
  mk_trace_file (md5Bytes (le_bytes 4 18 ++ c2_descriptor)) pid tid ts

/-- The C1 counterexample file: identical to `mk_c2_file 5 6 7` except
the stack record's stored hash is 16 zero bytes, which differs from the
body's MD5. -/
def c1_file : List Nat := mk_trace_file (List.replicate 16 0) 5 6 7

instance {ε α : Type} [DecidableEq ε] [DecidableEq α] : DecidableEq (Except ε α) :=
  fun x y =>
  match x, y with
  | .ok a, .ok b => if h : a = b then .isTrue (by rw [h]) else .isFalse (by simp [h])
  | .error a, .error b => if h : a = b then .isTrue (by rw [h]) else .isFalse (by simp [h])
  | .ok _, .error _ => .isFalse (by simp)
  | .error _, .ok _ => .isFalse (by simp)

theorem get_ok (l : List Nat) (a k : Int) (ha : 0 ≤ a) (hk : 0 ≤ k)
    (h : a + k ≤ (l.length : Int)) :
    get l a k = .ok ((l.drop a.toNat).take k.toNat) := by
  unfold get pySlice pyIdx
  rw [if_neg (by omega)]
  congr 1
  rw [if_neg (by omega), if_neg (by omega)]
  have h3 : (a + k).toNat = a.toNat + k.toNat := by omega
  rw [h3, Nat.min_eq_left (by omega), Nat.min_eq_left (by omega)]
  have h5 := List.drop_take (a.toNat + k.toNat) a.toNat l
  rw [h5]
  congr 1
  omega


theorem pyIdx_coe (len k : Nat) : pyIdx len (k : Int) = min k len := by
  unfold pyIdx
  rw [if_neg (by omega)]
  simp

/-- C8: reading an entry body that wraps across the circular boundary by
splitting it into at most two contiguous copies (from the cursor to
`body_size`, then from offset `0`) yields exactly the bytes of the same
logical entry stored contiguously, i.e. the first `n` bytes of the buffer
rotated so that the entry starts at offset `0`. -/
theorem entry_body_read_eq_rotate (body : List Nat) (tmp n : Nat)
    (h1 : tmp ≤ body.length) (h2 : n ≤ body.length) :
    entry_body_read body body.length tmp n =
      .ok ((body.drop tmp ++ body.take tmp).take n) := by
  simp only [entry_body_read, bind, Except.bind]
  by_cases hc : n ≤ body.length - tmp
  · rw [show ((n : Int) ⊓ ((body.length : Int) - (tmp : Int))) = (n : Int) from by omega]
    rw [get_ok body ↑tmp ↑n (by omega) (by omega) (by omega)]
    rw [show (((n : Int) - (n : Int)) ⊔ 0) = (0 : Int) from by omega]
    rw [get_ok body 0 0 (by omega) (by omega) (by omega)]
    simp only [Int.toNat_zero, Int.toNat_natCast, List.take_zero, List.drop_zero, pure]
    unfold set_slice_to set_slice_from
    simp only [List.length_replicate, pyIdx_coe, Nat.min_self, Nat.sub_self,
      List.drop_replicate, List.replicate_zero, List.append_nil]
    have hxlen : (List.take n (List.drop tmp body)).length = n := by
      simp
      omega
    rw [hxlen, Nat.min_self, List.take_of_length_le (le_of_eq hxlen)]
    rw [List.take_append_eq_append_take]
    have hz : n - (List.drop tmp body).length = 0 := by simp; omega
    rw [hz]
    simp [Except.pure]
  · rw [show ((n : Int) ⊓ ((body.length : Int) - (tmp : Int))) =
        (((body.length - tmp : Nat) : Int)) from by omega]
    rw [get_ok body ↑tmp ↑(body.length - tmp) (by omega) (by omega) (by omega)]
    rw [show (((n : Int) - ((body.length - tmp : Nat) : Int)) ⊔ 0) =
        (((n - (body.length - tmp) : Nat)) : Int) from by omega]
    rw [get_ok body 0 ↑(n - (body.length - tmp)) (by omega) (by omega) (by omega)]
    simp only [Int.toNat_natCast, Int.toNat_zero, List.drop_zero, pure]
    unfold set_slice_to set_slice_from
    simp only [List.length_replicate, pyIdx_coe]
    rw [show min (body.length - tmp) n = body.length - tmp from by omega]
    have hY : (List.take (body.length - tmp) (List.drop tmp body)) = List.drop tmp body := by
      apply List.take_of_length_le
      simp
    rw [hY]
    rw [show (List.replicate n (0:Nat)).drop (body.length - tmp) =
        List.replicate (n - (body.length - tmp)) 0 from by simp]
    have hlen2 : (List.drop tmp body ++
        List.replicate (n - (body.length - tmp)) (0:Nat)).length = n := by
      simp
      omega
    rw [hlen2]
    rw [show (body.length - tmp) ⊓ n = body.length - tmp from by omega]
    rw [List.take_append_eq_append_take, List.take_of_length_le (by simp)]
    rw [show body.length - tmp - (List.drop tmp body).length = 0 from by simp]
    simp only [List.take_zero, List.append_nil]
    rw [List.take_append_eq_append_take]
    rw [List.take_of_length_le (show (List.drop tmp body).length ≤ n from by simp; omega)]
    rw [List.take_take]
    have hmin : min (n - (List.drop tmp body).length) tmp = n - (body.length - tmp) := by
      simp
      omega
    rw [hmin]
    simp [Except.pure]

/-- Witness for C8 at a concrete wrapping read: a 4-byte entry starting
at position 3 of a 5-byte body wraps and equals the contiguous bytes of
the rotated buffer. -/
theorem entry_body_read_eq_rotate_witness :
    entry_body_read [10, 20, 30, 40, 50] 5 3 4 =
      .ok (([10, 20, 30, 40, 50].drop 3 ++ [10, 20, 30, 40, 50].take 3).take 4) :=
  entry_body_read_eq_rotate [10, 20, 30, 40, 50] 3 4 (by decide) (by decide)




/-- `x` is not an out-of-fuel result: the fuel sentinel can only arise
from exhausting a loop's fuel, never from translated Python code. -/
def NoFuel {α : Type} (x : Except Err α) : Prop :=
  ∀ e, x = .error e → e ≠ .outOfFuel

theorem NoFuel.ok {α : Type} (a : α) : NoFuel (Except.ok a) := by
  intro e h
  exact Except.noConfusion h

theorem NoFuel.pure_ {α : Type} (a : α) : NoFuel (pure a : Except Err α) :=
  NoFuel.ok a

theorem NoFuel.error_ne {α : Type} {e' : Err} (hne : e' ≠ .outOfFuel) :
    NoFuel (Except.error e' : Except Err α) := by
  intro e h
  injection h with h2
  rw [← h2]
  exact hne

theorem NoFuel.ite {α : Type} (c : Prop) [Decidable c] {x y : Except Err α}
    (hx : NoFuel x) (hy : NoFuel y) : NoFuel (if c then x else y) := by
  by_cases h : c
  · rw [if_pos h]; exact hx
  · rw [if_neg h]; exact hy

theorem NoFuel.bindE {α β : Type} {x : Except Err α} {f : α → Except Err β}
    (hx : NoFuel x) (hf : ∀ a, NoFuel (f a)) : NoFuel (Except.bind x f) := by
  intro e h
  cases hxv : x with
  | error e2 =>
      have he2 := hx e2 hxv
      rw [hxv] at h
      simp only [Except.bind] at h
      injection h with h2
      rw [← h2]
      exact he2
  | ok a =>
      rw [hxv] at h
      simp only [Except.bind] at h
      exact hf a e h

theorem NoFuel.bind {α β : Type} {x : Except Err α} {f : α → Except Err β}
    (hx : NoFuel x) (hf : ∀ a, NoFuel (f a)) : NoFuel (x >>= f) :=
  NoFuel.bindE hx hf

theorem py_check_nofuel (c : Prop) [Decidable c] {e : Err} (he : e ≠ .outOfFuel) :
    NoFuel (py_check c e) := by
  unfold py_check
  exact NoFuel.ite _ (NoFuel.ok _) (NoFuel.error_ne he)

theorem py_assert_nofuel (c : Prop) [Decidable c] (msg : String) :
    NoFuel (py_assert c msg) :=
  py_check_nofuel c (by simp)

theorem get_nofuel (l : List Nat) (a k : Int) : NoFuel (get l a k) := by
  unfold get
  exact NoFuel.ite _ (NoFuel.error_ne (by simp)) (NoFuel.ok _)

theorem get_int_nofuel (l : List Nat) (a k : Int) (endian : Endian) (s : Bool) :
    NoFuel (get_int l a k endian s) := by
  unfold get_int
  exact NoFuel.bind (get_nofuel l a k) fun bs =>
    NoFuel.ite _ (NoFuel.pure_ _) (NoFuel.pure_ _)

theorem list_index_nofuel (l : List Nat) (i : Nat) : NoFuel (list_index l i) := by
  unfold list_index
  cases l.get? i with
  | some v => exact NoFuel.ok v
  | none => exact NoFuel.error_ne (by simp)

theorem entry_body_read_nofuel (body : List Nat) (bs tmp n : Nat) :
    NoFuel (entry_body_read body bs tmp n) := by
  unfold entry_body_read
  exact NoFuel.bind (get_nofuel _ _ _) fun x =>
    NoFuel.bind (get_nofuel _ _ _) fun y => NoFuel.pure_ _

theorem rb_entry_init_nofuel (bs : Nat) (body : List Nat) (loc : Nat) (endian : Endian) :
    NoFuel (Ringbuffer_Entry.init bs body loc endian) := by
  unfold Ringbuffer_Entry.init
  refine NoFuel.bind (get_int_nofuel _ _ _ _ _) fun a => ?_
  refine NoFuel.bind (get_int_nofuel _ _ _ _ _) fun b => ?_
  refine NoFuel.bind (get_int_nofuel _ _ _ _ _) fun c => ?_
  refine NoFuel.bind (get_int_nofuel _ _ _ _ _) fun d => ?_
  exact NoFuel.bind (py_assert_nofuel _ _) fun _ => NoFuel.pure_ _

theorem ring_iter_nofuel (body : List Nat) (bs nf : Nat) (rec : Bool)
    (endian : Endian) (rfo lv : Nat) (visited : List Nat) :
    NoFuel (ring_iter body bs nf rec endian rfo lv visited) := by
  unfold ring_iter
  refine NoFuel.ite _ (NoFuel.ok _) ?_
  refine NoFuel.ite _ (NoFuel.ok _) ?_
  refine NoFuel.bindE (list_index_nofuel _ _) fun b0 => ?_
  refine NoFuel.ite _ (NoFuel.ok _) ?_
  refine NoFuel.bindE (list_index_nofuel _ _) fun b1 => ?_
  refine NoFuel.bindE (list_index_nofuel _ _) fun b2 => ?_
  refine NoFuel.bindE (list_index_nofuel _ _) fun b3 => ?_
  refine NoFuel.ite _ (NoFuel.ok _) ?_
  refine NoFuel.bindE (entry_body_read_nofuel _ _ _ _) fun eb => ?_
  refine NoFuel.ite _ (NoFuel.ok _) ?_
  exact NoFuel.bindE (rb_entry_init_nofuel _ _ _ _) fun en => NoFuel.ok _


theorem list_index_ok_lt {l : List Nat} {i v : Nat} (h : list_index l i = .ok v) :
    i < l.length := by
  unfold list_index at h
  cases hg : l.get? i with
  | some w => by_contra hn
              rw [List.get?_eq_none.mpr (by omega)] at hg
              exact Option.noConfusion hg
  | none => rw [hg] at h
            exact Except.noConfusion h

/-- If an iteration advanced the walk, its start position was readable
after a single wrap subtraction, so it lies below `2 * body_size`, and it
was not visited before. -/
theorem ring_iter_advance_bound {body : List Nat} {bs nf : Nat} {rec : Bool}
    {endian : Endian} {rfo lv : Nat} {visited : List Nat} {lv2 : Nat}
    {ent : Option Ringbuffer_Entry}
    (hlen : body.length = bs)
    (h : ring_iter body bs nf rec endian rfo lv visited = .ok (.advance lv2 ent)) :
    lv < 2 * bs ∧ lv ∉ visited := by
  unfold ring_iter at h
  split at h
  · injection h with h2
    exact IterOut.noConfusion h2
  · split at h
    · injection h with h2
      exact IterOut.noConfusion h2
    · rename_i hnc
      cases hli : list_index body (offset_fn lv 0 bs) with
      | error e =>
          rw [hli] at h
          simp only [Except.bind] at h
          exact Except.noConfusion h
      | ok b0 =>
          have hlt := list_index_ok_lt hli
          constructor
          · unfold offset_fn at hlt
            rw [hlen] at hlt
            split at hlt <;> omega
          · intro hm
            exact hnc (List.elem_iff.mpr hm)

/-- Number of unvisited candidate start positions below `2 * body_size`. -/
def walk_measure (bs : Nat) (visited : List Nat) : Nat :=
  ((Finset.range (2 * bs)).filter fun k => k ∉ visited).card

theorem walk_measure_cons {bs lv : Nat} {visited : List Nat}
    (hlt : lv < 2 * bs) (hnm : lv ∉ visited) :
    walk_measure bs (lv :: visited) < walk_measure bs visited := by
  apply Finset.card_lt_card
  rw [Finset.ssubset_iff_of_subset]
  · exact ⟨lv, Finset.mem_filter.mpr ⟨Finset.mem_range.mpr hlt, hnm⟩,
      fun hmem => (Finset.mem_filter.mp hmem).2 (by simp)⟩
  · intro x hx
    rw [Finset.mem_filter] at hx ⊢
    exact ⟨hx.1, fun hm => hx.2 (by simp [hm])⟩

theorem ring_walk_aux_nofuel (body : List Nat) (bs nf : Nat) (rec : Bool)
    (endian : Endian) (rfo : Nat) (hlen : body.length = bs) :
    ∀ fuel lv visited acc, walk_measure bs visited < fuel →
      ring_walk_aux body bs nf rec endian rfo fuel lv visited acc ≠
        .error .outOfFuel := by
  intro fuel
  induction fuel with
  | zero => intro lv visited acc hm
            omega
  | succ fuel ih =>
      intro lv visited acc hm h
      cases hit : ring_iter body bs nf rec endian rfo lv visited with
      | error e =>
          simp only [ring_walk_aux, bind, Except.bind, hit] at h
          injection h with h2
          exact ring_iter_nofuel body bs nf rec endian rfo lv visited e hit h2
      | ok r =>
          cases r with
          | stop =>
              simp only [ring_walk_aux, bind, Except.bind, hit, pure, Except.pure] at h
              exact Except.noConfusion h
          | advance lv2 ent =>
              simp only [ring_walk_aux, bind, Except.bind, hit] at h
              have hb := ring_iter_advance_bound hlen hit
              have hm2 : walk_measure bs (lv :: visited) < fuel := by
                have := walk_measure_cons hb.1 hb.2
                omega
              exact ih lv2 (lv :: visited) _ hm2 h

theorem ring_walk_aux_fuel_add (body : List Nat) (bs nf : Nat) (rec : Bool)
    (endian : Endian) (rfo : Nat) :
    ∀ fuel lv visited acc,
      ring_walk_aux body bs nf rec endian rfo fuel lv visited acc ≠
        .error .outOfFuel →
      ∀ k, ring_walk_aux body bs nf rec endian rfo (fuel + k) lv visited acc =
        ring_walk_aux body bs nf rec endian rfo fuel lv visited acc := by
  intro fuel
  induction fuel with
  | zero => intro lv visited acc h
            exact absurd rfl h
  | succ fuel ih =>
      intro lv visited acc h k
      have hkk : fuel + 1 + k = (fuel + k) + 1 := by omega
      rw [hkk]
      cases hit : ring_iter body bs nf rec endian rfo lv visited with
      | error e => simp only [ring_walk_aux, bind, Except.bind, hit]
      | ok r =>
          cases r with
          | stop => simp only [ring_walk_aux, bind, Except.bind, hit]
          | advance lv2 ent =>
              simp only [ring_walk_aux, bind, Except.bind, hit] at h ⊢
              exact ih lv2 (lv :: visited) _ h k

/-- C7 (amended): for every input body and every combination of header
values (including a corrupted `next_free` that is never reached, and with
`recover_all` either true or false) the ring-buffer body walk terminates:
every iteration either exits the loop, raises (ending the walk), or
consumes a start position not visited before from the finite set
`{0, ..., 2*body_size - 1}` (out-of-range positions crash the first body
read), so the walk's fuel of `2*body_size + 2` is never exhausted and any
larger fuel yields the identical result.  (The claim's set
`{0, ..., body_size-1}` is too small: see the counterexample.) -/
theorem ring_walk_terminates (body : List Nat) (bs nf : Nat) (rec : Bool)
    (endian : Endian) (rfo lv0 : Nat) (hlen : body.length = bs) :
    ring_walk body bs nf rec endian rfo lv0 ≠ .error .outOfFuel ∧
      ∀ f, 2 * bs + 2 ≤ f →
        ring_walk_aux body bs nf rec endian rfo f lv0 [] [] =
          ring_walk body bs nf rec endian rfo lv0 := by
  have hm : walk_measure bs [] < 2 * bs + 2 := by
    unfold walk_measure
    have : ((Finset.range (2 * bs)).filter fun k => k ∉ ([] : List Nat)).card ≤
        (Finset.range (2 * bs)).card := Finset.card_filter_le _ _
    rw [Finset.card_range] at this
    omega
  have h1 := ring_walk_aux_nofuel body bs nf rec endian rfo hlen
    (2 * bs + 2) lv0 [] [] hm
  refine ⟨h1, fun f hf => ?_⟩
  have hk : f = (2 * bs + 2) + (f - (2 * bs + 2)) := by omega
  rw [hk]
  exact ring_walk_aux_fuel_add body bs nf rec endian rfo (2 * bs + 2) lv0 [] []
    h1 (f - (2 * bs + 2))

/-- Witness for C7 at a concrete input. -/
theorem ring_walk_terminates_witness :
    (ring_walk [0, 0] 2 1 false Endian.little 0 2 ≠ .error .outOfFuel) ∧
      ring_walk_aux [0, 0] 2 1 false Endian.little 0 9 2 [] [] =
        ring_walk [0, 0] 2 1 false Endian.little 0 2 :=
  ⟨(ring_walk_terminates [0, 0] 2 1 false Endian.little 0 2 rfl).1,
    (ring_walk_terminates [0, 0] 2 1 false Endian.little 0 2 rfl).2 9 (by decide)⟩

/-- Counterexample for C7 as stated: with a corrupted header
`last_valid = body_size = 2` the walk still terminates normally, but the
consumed start position `2` is outside the claimed set
`{0, ..., body_size - 1}`: the visited set `start_positions` ends up as
`[2]` and `2 < 2` is false. -/
theorem ring_walk_visits_out_of_range_position :
    ring_walk [0, 0] 2 1 false Endian.little 0 2 = .ok ([], [2]) ∧ ¬(2 < 2) := by
  constructor
  · rfl
  · omega



theorem bytes_find_zero_append (fileB rest : List Nat) (h : ∀ b ∈ fileB, b ≠ 0) :
    bytes_find_zero (fileB ++ 0 :: rest) = (fileB.length : Int) := by
  induction fileB with
  | nil => simp [bytes_find_zero]
  | cons b t ih =>
      have hb : b ≠ 0 := h b (by simp)
      have ht := ih fun x hx => h x (by simp [hx])
      have ht2 : bytes_find_zero (t.append (0 :: rest)) = (t.length : Int) := ht
      simp only [List.cons_append, bytes_find_zero, if_neg hb, ht, ht2]
      rw [if_neg (by omega)]
      simp only [List.length_cons]
      push_cast
      ring

theorem getFrom_ok (l : List Nat) (i : Int) (h : 0 ≤ i) :
    getFrom l i = l.drop i.toNat := by
  unfold getFrom pySlice pyIdx
  rw [if_neg (by omega), if_neg (by omega)]
  have h1 : (l.length : Int).toNat = l.length := by omega
  rw [h1, Nat.min_self, List.take_length]
  by_cases hk : i.toNat ≤ l.length
  · rw [Nat.min_eq_left hk]
  · rw [Nat.min_eq_right (by omega)]
    rw [List.drop_length, List.drop_eq_nil_of_le (by omega)]

theorem utf8_ascii (l : List Nat) (h : ∀ b ∈ l, b < 0x80) :
    utf8_decode_ignore l = l := by
  unfold utf8_decode_ignore
  induction l with
  | nil => rfl
  | cons b rest ih =>
      have hb : b < 0x80 := h b (by simp)
      show utf8_aux (rest.length + 1) (b :: rest) = b :: rest
      simp only [utf8_aux, if_pos hb]
      congr 1
      exact ih fun x hx => h x (by simp [hx])

theorem escape_char_printable (cp : Nat) (h1 : 0x20 ≤ cp) (h2 : cp < 0x7F) :
    escape_char cp = [Char.ofNat cp] := by
  have hcond : ¬(unicode_cat_c cp = true ∧ cp ≠ 0) := by
    intro hc
    rcases hc with ⟨hc1, _⟩
    unfold unicode_cat_c at hc1
    simp only [Bool.or_eq_true, decide_eq_true_eq, Bool.and_eq_true] at hc1
    omega
  unfold escape_char
  rw [if_neg hcond]

theorem decode_printable (l : List Nat) (h : ∀ b ∈ l, 0x20 ≤ b ∧ b < 0x7F) :
    decode l = ⟨l.map Char.ofNat⟩ := by
  unfold decode
  rw [utf8_ascii l fun b hb => by have := h b hb; omega]
  congr 1
  induction l with
  | nil => rfl
  | cons b rest ih =>
      have hb := h b (by simp)
      simp only [List.map_cons, List.flatten_cons,
        escape_char_printable b hb.1 hb.2, List.singleton_append]
      congr 1
      exact ih fun x hx => h x (by simp [hx])



/-- C5 (amended): for every ring entry with `offset_tag == 1` whose
payload is `{source_file NUL, line:8B, format_string NUL}`, the rendered
message is the format string as transformed by `decode` (UTF-8-ignore
plus control-character escaping) with no argument substitution applied;
in particular it equals the format string verbatim whenever the format
string consists of printable ASCII. -/
theorem dynamic_format_verbatim_printable (e : Ringbuffer_Entry) (endian : Endian)
    (pre fileB lineB fmtB : List Nat)
    (hbody : e.body = pre ++ fileB ++ [0] ++ lineB ++ fmtB ++ [0])
    (hpre : pre.length = 22)
    (hfile : ∀ b ∈ fileB, b ≠ 0)
    (hline : lineB.length = 8)
    (hfmt : ∀ b ∈ fmtB, 0x20 ≤ b ∧ b < 0x7F) :
    (DynamicTraceentry.init e endian).map (fun d => d.formatted) =
      .ok ⟨fmtB.map Char.ofNat⟩ := by
  have hb22 : getFrom e.body 22 = fileB ++ 0 :: (lineB ++ (fmtB ++ [0])) := by
    rw [hbody, getFrom_ok _ _ (by omega)]
    rw [show ((22 : Int)).toNat = pre.length from by omega]
    rw [show pre ++ fileB ++ [0] ++ lineB ++ fmtB ++ [0] =
        pre ++ (fileB ++ 0 :: (lineB ++ (fmtB ++ [0]))) from by simp]
    rw [List.drop_left]
  have hfl : bytes_find_zero (fileB ++ 0 :: (lineB ++ (fmtB ++ [0]))) =
      (fileB.length : Int) := bytes_find_zero_append _ _ hfile
  have hlen : (fileB ++ 0 :: (lineB ++ (fmtB ++ [0]))).length =
      fileB.length + 9 + fmtB.length + 1 := by
    simp
    omega
  have hget1 : get (fileB ++ 0 :: (lineB ++ (fmtB ++ [0]))) 0 (fileB.length : Int) =
      .ok fileB := by
    rw [get_ok _ _ _ (by omega) (by omega) (by rw [hlen]; push_cast; omega)]
    simp only [Int.toNat_zero, Int.toNat_natCast, List.drop_zero]
    rw [List.take_left]
  have hget2 : get (fileB ++ 0 :: (lineB ++ (fmtB ++ [0])))
      ((fileB.length : Int) + 1) 8 =
      .ok (((fileB ++ 0 :: (lineB ++ (fmtB ++ [0]))).drop
        ((fileB.length : Int) + 1).toNat).take 8) := by
    rw [get_ok _ _ _ (by omega) (by omega) (by rw [hlen]; push_cast; omega)]
    rw [show ((8 : Int)).toNat = 8 from by omega]
  have hdrop9 : (fileB ++ 0 :: (lineB ++ (fmtB ++ [0]))).drop
      ((fileB.length : Int) + 8 + 1).toNat = fmtB ++ [0] := by
    rw [show ((fileB.length : Int) + 8 + 1).toNat = (fileB ++ 0 :: lineB).length from by
      simp
      omega]
    rw [show fileB ++ 0 :: (lineB ++ (fmtB ++ [0])) =
        (fileB ++ 0 :: lineB) ++ (fmtB ++ [0]) from by simp]
    rw [List.drop_left]
  simp only [DynamicTraceentry.init, hb22, hfl, bind, Except.bind, get_int, hget1, hget2,
    getFrom_ok _ _ (show (0 : Int) ≤ (fileB.length : Int) + 8 + 1 from by omega), hdrop9,
    Bool.false_eq_true, if_false, pure, Except.pure, Except.map]
  have hdl : (fmtB ++ [0]).dropLast = fmtB := by simp
  rw [hdl, decode_printable fmtB hfmt]

/-- The concrete dynamic entry of the C5 counterexample: source file
`"f"`, line 3, and a format string consisting of the single newline
byte. -/
def c5_entry : Ringbuffer_Entry :=
  { location_in_file := 0, body_size := 34,
    body := List.replicate 22 0 ++ [102, 0] ++ le_bytes 8 3 ++ [10, 0],
    offset := 1, pid := 0, tid := 0, timestamp_ns := 0, args_raw := [] }

/-- Counterexample for C5 as stated: a dynamic entry whose embedded
format string is the newline character renders as the two-character
escape `\n`, not as the format string verbatim. -/
theorem dynamic_format_not_verbatim :
    (DynamicTraceentry.init c5_entry Endian.little).map (fun d => d.formatted) =
      .ok "\\n" ∧ ("\\n" : String) ≠ "\n" := by
  constructor
  · rfl
  · decide

/-- Witness for C5 (amended) at a concrete printable format string
`"%u ok"` (rendered verbatim, no substitution). -/
theorem dynamic_format_verbatim_printable_witness :
    (DynamicTraceentry.init
      { location_in_file := 0, body_size := 38,
        body := List.replicate 22 0 ++ [102, 0] ++ le_bytes 8 3 ++
          [37, 117, 32, 111, 107, 0],
        offset := 1, pid := 0, tid := 0, timestamp_ns := 0, args_raw := [] }
      Endian.little).map (fun d => d.formatted) =
      .ok ⟨[37, 117, 32, 111, 107].map Char.ofNat⟩ :=
  dynamic_format_verbatim_printable _ Endian.little (List.replicate 22 0) [102]
    (le_bytes 8 3) [37, 117, 32, 111, 107] rfl (by decide) (by decide) (by decide)
    (by decide)



/-- The exception produced by the argument-extraction phase of
`static_stage_b`: the extraction loop's own failure, or the
argument-count assert. -/
def stage_b_failure (m : StaticMeta) (entry : Ringbuffer_Entry) (endian : Endian) : Err :=
  match extract_args_loop entry.args_raw endian m.arg_types
      (format_regex_finditer m.format) m.argument_count 0 0 with
  | .error (e, _) => e
  | .ok _ => .assertionError (arg_count_assert_msg m)

theorem stage_b_count_mismatch (m : StaticMeta) (entry : Ringbuffer_Entry)
    (endian : Endian)
    (hcount : m.argument_count ≠ (format_regex_finditer m.format).length) :
    (static_stage_b m entry endian).formatted =
      extract_error_text m.format m.file m.line (stage_b_failure m entry endian) := by
  unfold static_stage_b stage_b_failure
  cases hres : extract_args_loop entry.args_raw endian m.arg_types
      (format_regex_finditer m.format) m.argument_count 0 0 with
  | error p =>
      rcases p with ⟨e, partial_args⟩
      simp only [hres]
  | ok args =>
      simp only [hres, if_pos hcount]

/-- C3: for every static tracepoint entry whose declared argument count
differs from the number of printf conversion directives in its format
string, the resolver still produces an event (the entry is resolved to
`some` and appended, never dropped), and that event's message body is the
decode-error text (containing the format string and `file:line`), not the
rendered format string. -/
theorem static_count_mismatch_resolves_with_error (raw : List Nat) (stack : Stack)
    (endian : Endian) (e : Ringbuffer_Entry) (d : StaticMeta)
    (hoff : 2 ≤ e.offset)
    (hmagic : get raw (e.offset : Int) 1 = .ok [123])
    (hA : static_stage_a e (stack.get_blob e.offset) endian = .ok d)
    (hcount : d.argument_count ≠ (format_regex_finditer d.format).length) :
    resolve_one raw stack endian e = .ok (some (.stat (static_stage_b d e endian))) ∧
      (static_stage_b d e endian).formatted =
        extract_error_text d.format d.file d.line (stage_b_failure d e endian) := by
  constructor
  · have h0 : ¬(e.offset = 0) := by omega
    have h1 : ¬(e.offset = 1) := by omega
    simp only [resolve_one, if_neg h0, if_neg h1, hmagic, bind, Except.bind,
      StaticTraceentry.init, hA, if_pos rfl, pure, Except.pure, if_true]
  · exact stage_b_count_mismatch d e endian hcount

/-- The descriptor of the C3 witness: declared argument count 2 (two
`uint32`s) but format string `"%u"` with a single directive. -/
def c3_descriptor : List Nat :=
  [123] ++ le_bytes 4 19 ++ [1] ++ le_bytes 4 7 ++ [2] ++ [105, 105, 0] ++
    [102, 0, 37, 117, 0]

def c3_stack : Stack :=
  { file_offset := 0, version := 1,
    entries := [{ hash := List.replicate 16 0, body := c3_descriptor, body_size := 19,
                  file_offset := 100, begin_ := 100, end_ := 119 }] }

def c3_entry : Ringbuffer_Entry :=
  { location_in_file := 0, body_size := 30,
    body := le_bytes 6 100 ++ List.replicate 16 0 ++ le_bytes 4 5 ++ le_bytes 4 6,
    offset := 100, pid := 0, tid := 0, timestamp_ns := 0,
    args_raw := le_bytes 4 5 ++ le_bytes 4 6 }

def c3_meta : StaticMeta :=
  { meta_in_file_offset := 100, metaentry_in_metablob := 0, type := 1,
    meta_size := 19, raw_meta := c3_descriptor, line := 7, argument_count := 2,
    argument_type_array := ['i', 'i'], arg_types := ["uint32", "uint32"],
    string := "f\x00%u\x00", file := "f", format := "%u" }

/-- Witness for C3 at a concrete mismatching entry. -/
theorem static_count_mismatch_resolves_with_error_witness :
    resolve_one (List.replicate 100 0 ++ [123]) c3_stack Endian.little c3_entry =
        .ok (some (.stat (static_stage_b c3_meta c3_entry Endian.little))) ∧
      (static_stage_b c3_meta c3_entry Endian.little).formatted =
        extract_error_text c3_meta.format c3_meta.file c3_meta.line
          (stage_b_failure c3_meta c3_entry Endian.little) :=
  static_count_mismatch_resolves_with_error (List.replicate 100 0 ++ [123]) c3_stack
    Endian.little c3_entry c3_meta (by decide) (by decide) (by decide) (by decide)



theorem bindM_eq_ok {α β : Type} {x : Except Err α} {f : α → Except Err β} {b : β}
    (h : x >>= f = .ok b) : ∃ a, x = .ok a ∧ f a = .ok b := by
  cases x with
  | error e => exact absurd h (by simp [Bind.bind, Except.bind])
  | ok a => exact ⟨a, rfl, h⟩

/-- Inversion of `Tracebuffer.__init__`: a successfully built trace
buffer's `entries` field is exactly the result of resolving its ring
entries against its stack with its byte order and (swapped) raw bytes. -/
theorem tracebuffer_init_resolves {raw0 : List Nat} {rec : Bool} {tb : Tracebuffer}
    (h : Tracebuffer.init raw0 rec = .ok tb) :
    resolve_entries tb.raw_file_data tb.stack tb.endian tb.ringbuffer.entries =
      .ok tb.entries := by
  unfold Tracebuffer.init at h
  obtain ⟨file_magic, h1, h⟩ := bindM_eq_ok h
  obtain ⟨endian, h2, h⟩ := bindM_eq_ok h
  obtain ⟨head, h3, h⟩ := bindM_eq_ok h
  obtain ⟨u1, h4, h⟩ := bindM_eq_ok h
  obtain ⟨file_version, h5, h⟩ := bindM_eq_ok h
  obtain ⟨u2, h6, h⟩ := bindM_eq_ok h
  obtain ⟨u3, h7, h⟩ := bindM_eq_ok h
  obtain ⟨definition_offset, h8, h⟩ := bindM_eq_ok h
  obtain ⟨ringbuffer_offset, h9, h⟩ := bindM_eq_ok h
  obtain ⟨ringbuffer, h10, h⟩ := bindM_eq_ok h
  obtain ⟨stack_offset, h11, h⟩ := bindM_eq_ok h
  obtain ⟨stack, h12, h⟩ := bindM_eq_ok h
  obtain ⟨entries, h13, h⟩ := bindM_eq_ok h
  simp only [pure, Except.pure] at h
  injection h with h14
  rw [← h14]
  exact h13



theorem resolve_one_static (raw : List Nat) (stack : Stack) (endian : Endian)
    (e : Ringbuffer_Entry) (d : StaticMeta)
    (hoff : 2 ≤ e.offset)
    (hmagic : get raw (e.offset : Int) 1 = .ok [123])
    (hA : static_stage_a e (stack.get_blob e.offset) endian = .ok d) :
    resolve_one raw stack endian e = .ok (some (.stat (static_stage_b d e endian))) := by
  have h0 : ¬(e.offset = 0) := by omega
  have h1 : ¬(e.offset = 1) := by omega
  simp only [resolve_one, if_neg h0, if_neg h1, hmagic, bind, Except.bind,
    StaticTraceentry.init, hA, if_pos rfl, pure, Except.pure, if_true]

theorem stage_b_renders_42 (d : StaticMeta) (e : Ringbuffer_Entry)
    (hfmt : d.format = "%u") (hargc : d.argument_count = 1)
    (htypes : d.arg_types = ["uint32"]) (hargs : e.args_raw = [42, 0, 0, 0]) :
    (static_stage_b d e Endian.little).formatted = "42" := by
  unfold static_stage_b
  rw [hfmt, hargc, htypes, hargs]
  rfl

/-- C2: every well-formed 1024-byte trace file whose ring buffer holds
exactly one CRC-valid static tracepoint entry whose metadata descriptor
has format string `"%u"` and one `uint32` argument with value 42 decodes
to exactly one resolved event whose formatted message is `"42"`.
Well-formedness is expressed through the decoder itself: `Tracebuffer.init`
succeeds, its ring walk found exactly the one entry, the entry's
descriptor parses (`static_stage_a`) to a descriptor with the stated
format and argument type, and the argument payload is the value 42. -/
theorem single_u32_entry_decodes_to_42 (raw : List Nat) (e : Ringbuffer_Entry)
    (d : StaticMeta)
    (hlen : raw.length = 1024)
    (hr : (Tracebuffer.init raw false).map (fun tb => tb.ringbuffer.entries) = .ok [e])
    (hend : (Tracebuffer.init raw false).map (fun tb => tb.endian) = .ok Endian.little)
    (hmagic : (Tracebuffer.init raw false).map
      (fun tb => get tb.raw_file_data (e.offset : Int) 1) = .ok (.ok [123]))
    (hA : (Tracebuffer.init raw false).map
      (fun tb => static_stage_a e (tb.stack.get_blob e.offset) tb.endian) =
        .ok (.ok d))
    (hoff : 2 ≤ e.offset)
    (hfmt : d.format = "%u") (hargc : d.argument_count = 1)
    (htypes : d.arg_types = ["uint32"]) (hargs : e.args_raw = [42, 0, 0, 0]) :
    (Tracebuffer.init raw false).map (fun tb => tb.entries.map Resolved.formatted) =
      .ok ["42"] := by
  cases hinit : Tracebuffer.init raw false with
  | error e0 =>
      rw [hinit] at hr
      exact absurd hr (by simp [Except.map])
  | ok tb =>
      rw [hinit] at hr hend hmagic hA
      simp only [Except.map, Except.ok.injEq] at hr hend hmagic hA ⊢
      have hres := tracebuffer_init_resolves hinit
      rw [hr, hend] at hres
      rw [resolve_entries] at hres
      rw [resolve_one_static tb.raw_file_data tb.stack Endian.little e d hoff
        hmagic (by rw [← hend]; exact hA)] at hres
      simp only [bind, Except.bind, resolve_entries, pure, Except.pure,
        Except.ok.injEq] at hres
      rw [← hres]
      simp only [List.map_cons, List.map_nil, Resolved.formatted]
      rw [stage_b_renders_42 d e hfmt hargc htypes hargs]

/-- The single ring entry of the witness file `mk_c2_file 5 6 7`. -/
def c2_entry : Ringbuffer_Entry :=
  { location_in_file := 193, body_size := 26,
    body := le_bytes 6 374 ++ le_bytes 4 5 ++ le_bytes 4 6 ++ le_bytes 8 7 ++
      le_bytes 4 42,
    offset := 374, pid := 5, tid := 6, timestamp_ns := 7,
    args_raw := [42, 0, 0, 0] }

/-- The parsed descriptor of the witness file. -/
def c2_meta : StaticMeta :=
  { meta_in_file_offset := 374, metaentry_in_metablob := 0, type := 1,
    meta_size := 18, raw_meta := c2_descriptor, line := 7, argument_count := 1,
    argument_type_array := ['i'], arg_types := ["uint32"],
    string := "f\x00%u\x00", file := "f", format := "%u" }

/-- Witness for C2 at the concrete 1024-byte file `mk_c2_file 5 6 7`. -/
theorem single_u32_entry_decodes_to_42_witness :
    (Tracebuffer.init (mk_c2_file 5 6 7) false).map
      (fun tb => tb.entries.map Resolved.formatted) = .ok ["42"] :=
  single_u32_entry_decodes_to_42 (mk_c2_file 5 6 7) c2_entry c2_meta
    (by decide) (by decide) (by decide) (by decide) (by decide) (by decide)
    rfl rfl rfl rfl

theorem get_ok_length {l : List Nat} {a k : Int} {v : List Nat}
    (h : get l a k = .ok v) : a + k ≤ (l.length : Int) := by
  unfold get at h
  by_cases hc : (l.length : Int) < a + k
  · rw [if_pos hc] at h
    exact Except.noConfusion h
  · omega

/-- C1 counterexample: in `c1_file` the stack record's stored hash (16
zero bytes) differs from the MD5 of its size field and body; decoding the
file does not proceed and no ring entry is emitted with a fallback
message — `Tracebuffer.__init__` raises
`AssertionError("invalid md5 in stack entry")`. -/
theorem metadata_md5_mismatch_aborts_decode :
    Tracebuffer.init c1_file false =
      .error (.assertionError "invalid md5 in stack entry") := by rfl

/-- C1 (amended): whenever the MD5 digest of a stack record's 4-byte
size field concatenated with its body differs from the record's stored
16-byte hash, `Stack_Entry.__init__` raises
`AssertionError("invalid md5 in stack entry")`, so the decode of the
containing file aborts with that exception instead of emitting fallback
messages; at the batch level `genTracebuffer` catches the exception and
yields `None` for the file (shown on the concrete file `c1_file`), so
only that file is dropped and the batch continues. -/
theorem metadata_md5_mismatch_raises (file_offset : Nat) (raw : List Nat)
    (endian : Endian) (head hash : List Nat) (body_size : Int)
    (body size_field : List Nat)
    (hhead : get raw file_offset 29 = .ok head)
    (hcrc : crc8 head 0 = 0)
    (hhash : get raw file_offset 16 = .ok hash)
    (hbs : get_int raw (file_offset + 24) 4 endian false = .ok body_size)
    (hbody : get raw (file_offset + 29) body_size = .ok body)
    (hsz : get raw (file_offset + 24) 4 = .ok size_field)
    (hne : md5Bytes (size_field ++ body) ≠ hash) :
    Stack_Entry.init file_offset raw endian =
      .error (.assertionError "invalid md5 in stack entry") ∧
    genTracebuffer c1_file false = none := by
  constructor
  · have hlen : (file_offset : Int) + 29 ≤ (raw.length : Int) := by
      have := get_ok_length hhead
      omega
    have hres : get raw ((file_offset : Int) + 16) 8 =
        .ok ((raw.drop ((file_offset : Int) + 16).toNat).take ((8 : Int)).toNat) :=
      get_ok raw ((file_offset : Int) + 16) 8 (by omega) (by omega) (by omega)
    have hcrcb : get raw ((file_offset : Int) + 28) 1 =
        .ok ((raw.drop ((file_offset : Int) + 28).toNat).take ((1 : Int)).toNat) :=
      get_ok raw ((file_offset : Int) + 28) 1 (by omega) (by omega) (by omega)
    simp only [Stack_Entry.init, bind, Except.bind, hhead, hhash, hbs, hbody,
      hsz, hres, hcrcb, py_assert, py_check, if_pos hcrc, if_neg hne]
  · rfl

/-- Witness for the C1 theorem at the stack record of `c1_file`
(file offset 345). -/
theorem metadata_md5_mismatch_raises_witness :
    Stack_Entry.init 345 c1_file .little =
      .error (.assertionError "invalid md5 in stack entry") ∧
    genTracebuffer c1_file false = none :=
  metadata_md5_mismatch_raises 345 c1_file .little
    (pySlice c1_file 345 374) (pySlice c1_file 345 361) 18
    (pySlice c1_file 374 392) (pySlice c1_file 369 373)
    (by rfl) (by decide) (by rfl) (by rfl) (by rfl) (by rfl) (by decide)

theorem get_int_unsigned_nonneg {raw : List Nat} {a k : Int} {e : Endian} {v : Int}
    (h : get_int raw a k e false = .ok v) : 0 ≤ v := by
  unfold get_int at h
  obtain ⟨bs, hbs, h2⟩ := bindM_eq_ok h
  simp [pure, Except.pure] at h2
  omega

/-- C9: for every input on which the ring-buffer constructor succeeds
(so a non-zero missing count is never by itself a decode failure), the
missing-tracepoint count equals
`max(0, header_entry_count - (found + dropped + mutex_was_locked))`,
where `mutex_was_locked` is 1 exactly when some byte of the mutex region
is non-zero. -/
theorem missing_count_formula (file_offset : Nat) (raw : List Nat)
    (recover_all : Bool) (endian : Endian) (cv : Nat × Nat) (rb : Ringbuffer)
    (h : Ringbuffer.init file_offset raw recover_all endian cv = .ok rb) :
    rb.missing_tracepoint_cound =
      max 0 ((rb.header_entries_count : Int) -
        ((rb.entries.length : Int) + (rb.dropped : Int) +
          (if rb.mutex_locked then 1 else 0))) := by
  simp only [Ringbuffer.init, bind, Except.bind] at h
  obtain ⟨mutex_len, hml, h⟩ := bindM_eq_ok h
  obtain ⟨version, hver, h⟩ := bindM_eq_ok h
  obtain ⟨mutex, hmx, h⟩ := bindM_eq_ok h
  obtain ⟨body_size, hbs, h⟩ := bindM_eq_ok h
  obtain ⟨wrapped, hw, h⟩ := bindM_eq_ok h
  obtain ⟨dropped, hd, h⟩ := bindM_eq_ok h
  obtain ⟨hec, hh, h⟩ := bindM_eq_ok h
  obtain ⟨next_free, hnf, h⟩ := bindM_eq_ok h
  obtain ⟨last_valid, hlv, h⟩ := bindM_eq_ok h
  obtain ⟨rsv, hrsv, h⟩ := bindM_eq_ok h
  obtain ⟨u, hu, h⟩ := bindM_eq_ok h
  obtain ⟨walk, hwalk, h⟩ := bindM_eq_ok h
  simp only [pure, Except.pure, Except.ok.injEq] at h
  subst h
  dsimp only
  rw [Int.toNat_of_nonneg (get_int_unsigned_nonneg hh),
    Int.toNat_of_nonneg (get_int_unsigned_nonneg hd)]

/-- The ring region used by the C9 witness: header entry count 1, but an
empty walk (last_valid = next_free = 0), zero dropped counter and an
all-zero mutex, so one tracepoint is missing. -/
def c9_raw : List Nat :=
  List.replicate 40 0 ++ le_bytes 8 8 ++ le_bytes 8 0 ++ le_bytes 8 0 ++
  le_bytes 8 1 ++ le_bytes 8 0 ++ le_bytes 8 0 ++ List.replicate 40 0 ++
  List.replicate 8 0

/-- The ring buffer parsed from `c9_raw`. -/
def c9_rb : Ringbuffer :=
  { version := 0, mutex_locked := false, body_size := 8, wrapped := 0,
    dropped := 0, header_entries_count := 1, next_free := 0, last_valid := 0,
    used := 0, entries := [], visited := [], missing_tracepoint_cound := 1 }

/-- Witness for C9: `c9_raw` parses successfully (missing count 1 is only
a warning, not a failure) and the formula gives its missing count. -/
theorem missing_count_formula_witness :
    Ringbuffer.init 0 c9_raw false .little (1, 1) = .ok c9_rb ∧
    c9_rb.missing_tracepoint_cound =
      max 0 ((c9_rb.header_entries_count : Int) -
        ((c9_rb.entries.length : Int) + (c9_rb.dropped : Int) +
          (if c9_rb.mutex_locked then 1 else 0))) :=
  ⟨by decide, missing_count_formula 0 c9_raw false .little (1, 1) c9_rb (by decide)⟩

end CLLTK
